import Mathlib

/-!
# go-mysql-backup-s3: the backup workflow of `main.go`

A shallow embedding of `src/main.go` and a development of the properties its
specification states about it.

Conventions of the embedding.

* A Go `string` is a Lean `String`; a Go `error` is an `Option String`: `none`
  is `nil`, `some e` is an error whose `Error()` text is `e`.
* The program talks to the operating system, to `mysqldump`, to the clock and to
  an S3 endpoint.  What those answer during one run is the `Oracle`; the two
  persisted files and the dump files on disk are the `World`.
* `log.Fatalf` ends the process: a function that may call it returns a `Res`,
  whose `fatal` case carries the state at the moment of the exit.
* The Go runtime ends the process, with status 2, when it cannot provide the
  buffer that `uploadToS3` asks for to hold the whole dump file: that is the
  `crash` case of a `Res`.  Apart from this the process is taken to run until
  `main` returns or `log.Fatalf` is called.
* Every external call a run makes is recorded, in program order, in a trace of
  `Event`s, so that "is called", "exactly once" and "not attempted" can be stated.
* `path/filepath` and `time.Format` are the Unix versions of Go's standard
  library, embedded at the level of their character loops.  A Go string is a
  sequence of bytes; the separator `/` is a single byte that occurs in no
  multi-byte character, so the loops read the same on characters.
* Loops are given fuel for as many rounds as they can make; lemmas show that
  more fuel changes nothing.
-/

namespace BackupS3

set_option linter.unusedVariables false
set_option maxRecDepth 16384

/-! ## `time`: the two layouts the program formats with -/

/-- The civil reading of a `time.Time`: what `Format` consults.  `zoneOffset` is
in seconds east of UTC. -/
structure Time where
  year : Nat
  month : Fin 13
  day : Fin 32
  hour : Fin 24
  minute : Fin 60
  second : Fin 60
  zoneOffset : Int
  deriving DecidableEq, Repr

/-- Go `utod`: the decimal digit character of `u` (`'0' + byte(u)`). -/
def utod (u : Nat) : Char := Char.ofNat (48 + u)

/-- The slow path of Go `appendInt`: the decimal digits of `u`, least significant
first (`for u >= 10 { ...; u = q }`).  Each round divides by ten, so `fuel = u`
rounds always suffice. -/
def digitsRev : Nat → Nat → List Char
  | 0, u => [utod (u % 10)]
  | fuel + 1, u => if u ≥ 10 then utod (u % 10) :: digitsRev fuel (u / 10) else [utod u]

/-- Go `time.appendInt` for a non-negative `x`: decimal, zero-padded on the left
to at least `width` characters, with the two fast paths of the source. -/
def appendInt (x width : Nat) : List Char :=
  if width = 2 ∧ x < 100 then [utod (x / 10), utod (x % 10)]
  else if width = 4 ∧ x < 10000 then
    [utod (x / 1000), utod (x / 100 % 10), utod (x / 10 % 10), utod (x % 10)]
  else
    let ds := (digitsRev x x).reverse
    List.replicate (width - ds.length) '0' ++ ds

/-- The layout `"20060102_150405"` of `main.go:47`. -/
def formatStamp (t : Time) : String :=
  ⟨appendInt t.year 4 ++ appendInt t.month 2 ++ appendInt t.day 2 ++ ['_'] ++
    appendInt t.hour 2 ++ appendInt t.minute 2 ++ appendInt t.second 2⟩

/-- The zone suffix of layout element `Z07:00`: `Z` for UTC, else sign, hours,
colon, minutes. -/
def formatZone (offset : Int) : List Char :=
  if offset = 0 then ['Z']
  else
    let zone := Int.tdiv offset 60 -- Go integer division truncates toward zero
    let sign := if zone < 0 then '-' else '+'
    let z := zone.natAbs
    sign :: (appendInt (z / 60) 2 ++ [':'] ++ appendInt (z % 60) 2)

/-- The layout `time.RFC3339` (`"2006-01-02T15:04:05Z07:00"`) of `main.go:229`. -/
def formatRFC3339 (t : Time) : String :=
  ⟨appendInt t.year 4 ++ ['-'] ++ appendInt t.month 2 ++ ['-'] ++ appendInt t.day 2 ++ ['T'] ++
    appendInt t.hour 2 ++ [':'] ++ appendInt t.minute 2 ++ [':'] ++ appendInt t.second 2 ++
    formatZone t.zoneOffset⟩

/-! ## `path/filepath` (Unix: separator `/`, empty volume name) -/

/-- The inner loop of the `..` case of `Clean`:
`for out.w > dotdot && out.index(out.w) != '/' { out.w-- }`.
The buffer is kept most recent character first; `last` is `out.index(out.w)`, the
character just given up. -/
def backtrackLoop (dotdot : Nat) : List Char → Char → List Char
  | [], _ => []
  | c :: out, last =>
    if (c :: out).length > dotdot ∧ last ≠ '/' then backtrackLoop dotdot out c else c :: out

/-- The `..` case of `Clean` when it can backtrack: `out.w--` and then the loop. -/
def backtrack (dotdot : Nat) : List Char → List Char
  | [] => []
  | c :: out => backtrackLoop dotdot out c

/-- The main loop `for r < n { switch ... }` of `filepath.Clean`.  `path` is
`path[r:]`, `st.1` the written part of the output buffer (most recent character
first) and `st.2` is `dotdot`.  Every round consumes at least one character, so
`path.length` rounds of fuel always suffice. -/
def cleanLoop (rooted : Bool) : Nat → List Char → List Char × Nat → List Char × Nat
  | 0, _, st => st
  | _ + 1, [], st => st
  | fuel + 1, c :: rest, (out, dotdot) =>
    if c = '/' then
      -- empty path element
      cleanLoop rooted fuel rest (out, dotdot)
    else if c = '.' ∧ (rest = [] ∨ rest.head? = some '/') then
      -- . element
      cleanLoop rooted fuel rest (out, dotdot)
    else if c = '.' ∧ rest.head? = some '.' ∧ (rest.tail = [] ∨ rest.tail.head? = some '/') then
      -- .. element: remove to last separator
      if out.length > dotdot then
        cleanLoop rooted fuel rest.tail (backtrack dotdot out, dotdot)
      else if rooted = false then
        let out1 := if out.length > 0 then '/' :: out else out
        let out2 := '.' :: '.' :: out1
        cleanLoop rooted fuel rest.tail (out2, out2.length)
      else
        cleanLoop rooted fuel rest.tail (out, dotdot)
    else
      -- real path element: add slash if needed, copy element
      let out1 :=
        if (rooted = true ∧ out.length ≠ 1) ∨ (rooted = false ∧ out.length ≠ 0) then '/' :: out
        else out
      cleanLoop rooted fuel ((c :: rest).dropWhile (· ≠ '/'))
        (((c :: rest).takeWhile (· ≠ '/')).reverse ++ out1, dotdot)

/-- The state `Clean` enters its loop with: a rooted path has its leading slash
written and `dotdot = 1`. -/
def cleanInit (rooted : Bool) : List Char × Nat :=
  if rooted then (['/'], 1) else ([], 0)

/-- Go `filepath.Clean` on the characters of the path. -/
def cleanChars (path : List Char) : List Char :=
  if path = [] then ['.']
  else
    let rooted : Bool := path.head? = some '/'
    let rest := if rooted then path.tail else path
    let out := (cleanLoop rooted rest.length rest (cleanInit rooted)).1
    if out.length = 0 then ['.'] else out.reverse

/-- Go `filepath.Clean`. -/
def Clean (path : String) : String := ⟨cleanChars path.data⟩

/-- Go `filepath.Join`: the elements from the first non-empty one on, joined by
the separator and cleaned; the empty string when there is none. -/
def Join : List String → String
  | [] => ""
  | e :: es => if e ≠ "" then Clean (String.intercalate "/" (e :: es)) else Join es

/-- Go `filepath.Base`: the last element of the path, trailing slashes removed
first; `"."` for the empty path and `"/"` for a path of slashes only. -/
def Base (path : String) : String :=
  if path = "" then "."
  else
    let stripped := path.data.reverse.dropWhile (· = '/')
    let last := (stripped.takeWhile (· ≠ '/')).reverse
    if last = [] then "/" else ⟨last⟩

/-- Go `filepath.Dir`: all but the last element of the path, cleaned. -/
def Dir (path : String) : String :=
  Clean ⟨(path.data.reverse.dropWhile (· ≠ '/')).reverse⟩

/-! ## The environment of one run -/

/-- The settings `main` reads with `os.Getenv` (`main.go:27-39`). -/
structure Config where
  dbUser : String
  dbPassword : String
  dbHost : String
  dbPort : String
  s3AccessKeyID : String
  s3SecretAccessKey : String
  s3Region : String
  s3BucketName : String
  s3Endpoint : String
  backupFolderPrefix : String
  backupFilePrefix : String
  deriving DecidableEq, Repr

/-- A failed `os.WriteFile`: its error text and what the call left of the file
(`none`: no file), since the call may fail before or after truncating it. -/
structure WriteFault where
  err : String
  left : Option String
  deriving DecidableEq, Repr

/-- The two ways `appendToBackupLog` can fail: `os.OpenFile` fails, or
`WriteString` fails after `written` characters of the line went out. -/
inductive AppendFault where
  | openFailed (err : String)
  | writeFailed (err : String) (written : Nat)
  deriving DecidableEq, Repr

/-- What `os.ReadFile("previous_backup.log")` answered. -/
inductive ReadResult where
  | data (d : String)
  | notExist
  | failed (err : String)
  deriving DecidableEq, Repr

/-- The answers of the outside world during one run, one field per external
call site of `main.go`. A field is consulted only if the run reaches its call. -/
structure Oracle where
  /-- Error of `godotenv.Load()`. -/
  envLoad : Option String
  /-- Whether `os.Stat(folderName)` answers with an `IsNotExist` error. -/
  folderMissing : Bool
  /-- Error of `os.Mkdir(folderName, os.ModePerm)`. -/
  mkdir : Option String
  /-- Value of `time.Now()` at `main.go:47`. -/
  now : Time
  /-- Error of `cmd.Run()` of `mysqldump`. -/
  dump : Option String
  /-- Whether a failed `mysqldump` left a (partial) result file behind. -/
  dumpLeavesFile : Bool
  /-- An error of `os.ReadFile` other than not-exist. -/
  pointerRead : Option String
  /-- Error of `os.Open(fileName)` in `uploadToS3`. -/
  uploadOpen : Option String
  /-- Error of `file.Stat()`. -/
  uploadStat : Option String
  /-- Error of `session.NewSession(config)` in `uploadToS3`. -/
  uploadSession : Option String
  /-- Whether the Go runtime cannot provide the buffer of `main.go:139`,
  `make([]byte, fileStat.Size())`, as for a dump file larger than the memory the
  process can get. -/
  uploadBufferFails : Bool
  /-- Error of `file.Read(buffer)`. -/
  uploadRead : Option String
  /-- Error of `s3Client.PutObject`. -/
  putObject : Option String
  /-- The fault, if any, of the history append that follows the upload. -/
  uploadLogFault : Option AppendFault
  /-- Value of `time.Now()` inside that append. -/
  uploadLogTime : Time
  /-- Error of `session.NewSession(config)` in `deleteFromS3`. -/
  deleteSession : Option String
  /-- Error of `s3Client.DeleteObject`. -/
  deleteObject : Option String
  /-- The fault, if any, of the history append that follows the delete. -/
  deleteLogFault : Option AppendFault
  /-- Value of `time.Now()` inside that append. -/
  deleteLogTime : Time
  /-- Fault of `os.WriteFile("previous_backup.log", ...)`. -/
  pointerWrite : Option WriteFault
  /-- Error of `os.Remove(fileName)`. -/
  remove : Option String
  deriving DecidableEq, Repr

/-- The persisted state: the pointer file `previous_backup.log`, the history file
`backup_history.log` (`none`: the file does not exist) and the paths of the dump
files on disk. -/
structure World where
  pointer : Option String
  history : Option String
  files : List String
  deriving DecidableEq, Repr

/-- The external calls of a run, as recorded in its trace. `uploadToS3` and
`deleteFromS3` are the calls of these two functions, recorded when they return
with the error they return; `uploadCrash` is a call of `uploadToS3` that does
not return because the Go runtime ends the process in it; the others are the
system, subprocess and S3 requests themselves, with what they answered. -/
inductive Event where
  | loadEnv (err : Option String)
  | mkdir (folderName : String) (err : Option String)
  | mysqldump (args : List String) (err : Option String)
  | readPointer (result : ReadResult)
  | uploadToS3 (fileName : String) (err : Option String)
  | uploadCrash (fileName : String)
  | putObject (bucket key : String) (err : Option String)
  | appendHistory (message : String) (fault : Option AppendFault)
  | deleteFromS3 (fileName : String) (err : Option String)
  | deleteObject (bucket key : String) (err : Option String)
  | writePointer (value : String) (fault : Option WriteFault)
  | remove (fileName : String) (err : Option String)
  deriving DecidableEq, Repr

/-- The state of the running process: the world, the lines written through the
standard logger (message text, without the logger's date prefix) and the trace. -/
structure Proc where
  world : World
  log : List String
  trace : List Event
  deriving DecidableEq, Repr

/-- The result of a function in which the process may end: it returns, or the
process has exited through `log.Fatalf` with the state `p`, or the Go runtime
has ended the process with the state `p`. -/
inductive Res (α : Type) where
  | ret (a : α) (p : Proc)
  | fatal (p : Proc)
  | crash (p : Proc)
  deriving Repr

/-- The exit status of the process: `success` is status 0, `fatal` is the status 1
of `log.Fatalf`, `crashed` is the status 2 with which the Go runtime ends a
process it cannot continue. -/
inductive Exit where
  | success
  | fatal
  | crashed
  deriving DecidableEq, Repr

/-- A finished run. -/
structure Run where
  exit : Exit
  final : Proc
  deriving DecidableEq, Repr

/-- Go `log.Printf` / `log.Println` / the printing half of `log.Fatalf`. -/
def logf (msg : String) (p : Proc) : Proc := { p with log := p.log ++ [msg] }

/-- Append an event to the trace. -/
def record (e : Event) (p : Proc) : Proc := { p with trace := p.trace ++ [e] }

/-- Return `err` from a function whose completed call the trace records as
`call err`. -/
def returning (call : Option String → Event) (err : Option String) (p : Proc) :
    Option String × Proc :=
  (err, record (call err) p)

/-! ## The functions of `main.go` -/

/-- Go `createBackupFolder` (`main.go:88-97`). `os.Mkdir` is called only when
`os.Stat` answers with an `IsNotExist` error; on any other answer of `os.Stat`,
an error included, nothing is created and `nil` is returned. -/
def createBackupFolder (o : Oracle) (folderName : String) (p : Proc) : Option String × Proc :=
  if o.folderMissing then
    let p1 := record (.mkdir folderName o.mkdir) p
    match o.mkdir with
    | some e => (some ("failed to create folder: " ++ e), p1)
    | none => (none, logf ("Backup folder created: " ++ folderName) p1)
  else (none, p)

/-- Go `backupMySQL` (`main.go:100-105`). A successful `mysqldump -r file` has
written `file`. -/
def backupMySQL (o : Oracle) (user password host port backupFileName : String) (p : Proc) :
    Option String × Proc :=
  let args := ["--all-databases", "-u" ++ user, "-p" ++ password, "-h" ++ host, "-P" ++ port,
    "-r", backupFileName]
  let p1 := record (.mysqldump args o.dump) p
  let written : Proc :=
    { p1 with world := { p1.world with files := backupFileName :: p1.world.files } }
  match o.dump with
  | some e => (some e, if o.dumpLeavesFile then written else p1)
  | none => (none, written)

/-- Return `err` from `uploadToS3 fileName`. -/
def uploadReturns (fileName : String) (err : Option String) (p : Proc) : Res (Option String) :=
  .ret err (record (.uploadToS3 fileName err) p)

/-- Go `uploadToS3` (`main.go:108-156`). The buffer for the whole file is asked
for at line 139, after the file was opened and inspected and the session
created: when the runtime cannot provide it the process ends there, with
nothing logged through the logger. The object key is `filepath.Base(fileName)`;
the body (what the single `file.Read` put into the buffer) is not modelled. -/
def uploadToS3 (o : Oracle) (accessKey secretKey region bucketName endpoint fileName : String)
    (p : Proc) : Res (Option String) :=
  match o.uploadOpen with
  | some e => uploadReturns fileName (some ("failed to open file: " ++ e)) p
  | none =>
  match o.uploadStat with
  | some e => uploadReturns fileName (some ("failed to get file info: " ++ e)) p
  | none =>
  match o.uploadSession with
  | some e => uploadReturns fileName (some ("failed to create AWS session: " ++ e)) p
  | none =>
  if o.uploadBufferFails then .crash (record (.uploadCrash fileName) p) else
  match o.uploadRead with
  | some e => uploadReturns fileName (some ("failed to read file: " ++ e)) p
  | none =>
  let p1 := record (.putObject bucketName (Base fileName) o.putObject) p
  match o.putObject with
  | some e => uploadReturns fileName (some ("failed to upload to S3: " ++ e)) p1
  | none => uploadReturns fileName none p1

/-- Go `deleteLocalBackup` (`main.go:159-166`). -/
def deleteLocalBackup (o : Oracle) (fileName : String) (p : Proc) : Option String × Proc :=
  let p1 := record (.remove fileName o.remove) p
  match o.remove with
  | some e => (some ("failed to delete file: " ++ e), p1)
  | none =>
    (none, logf ("Successfully deleted local backup file: " ++ fileName)
      { p1 with world := { p1.world with files := p1.world.files.filter (· ≠ fileName) } })

/-- Go `deleteFromS3` (`main.go:169-199`). -/
def deleteFromS3 (o : Oracle) (accessKey secretKey region bucketName endpoint fileName : String)
    (p : Proc) : Option String × Proc :=
  match o.deleteSession with
  | some e => returning (.deleteFromS3 fileName) (some ("failed to create AWS session: " ++ e)) p
  | none =>
  let p1 := record (.deleteObject bucketName fileName o.deleteObject) p
  match o.deleteObject with
  | some e => returning (.deleteFromS3 fileName) (some ("failed to delete S3 file: " ++ e)) p1
  | none =>
    returning (.deleteFromS3 fileName) none (logf ("Deleted previous backup from S3: " ++ fileName) p1)

/-- Go `saveCurrentBackupLog` (`main.go:202-207`): the pointer file is replaced by
exactly the bytes of `fileName`. -/
def saveCurrentBackupLog (o : Oracle) (fileName : String) (p : Proc) : Res Unit :=
  let p1 := record (.writePointer fileName o.pointerWrite) p
  match o.pointerWrite with
  | some f =>
    .fatal (logf ("Failed to write current backup to log: " ++ f.err)
      { p1 with world := { p1.world with pointer := f.left } })
  | none => .ret () { p1 with world := { p1.world with pointer := some fileName } }

/-- Go `readPreviousBackupLog` (`main.go:210-219`): a missing file reads as `""`,
any other error is fatal. -/
def readPreviousBackupLog (o : Oracle) (p : Proc) : Res String :=
  match o.pointerRead with
  | some e =>
    .fatal (logf ("Failed to read previous backup log: " ++ e) (record (.readPointer (.failed e)) p))
  | none =>
    match p.world.pointer with
    | none => .ret "" (record (.readPointer .notExist) p)
    | some data => .ret data (record (.readPointer (.data data)) p)

/-- The text `appendToBackupLog` writes for `message` at time `t`:
`fmt.Sprintf("%s at %s\n", message, t.Format(time.RFC3339))`. -/
def historyLine (message : String) (t : Time) : String :=
  message ++ " at " ++ formatRFC3339 t ++ "\n"

/-- Go `appendToBackupLog` (`main.go:222-233`): opens the history file for append,
creating it if needed, and writes one `historyLine`. Both failures are fatal. -/
def appendToBackupLog (fault : Option AppendFault) (t : Time) (message : String) (p : Proc) :
    Res Unit :=
  let p1 := record (.appendHistory message fault) p
  let old := p.world.history.getD ""
  match fault with
  | some (.openFailed e) => .fatal (logf ("Failed to open backup history log: " ++ e) p1)
  | some (.writeFailed e written) =>
    .fatal (logf ("Failed to write to backup history log: " ++ e)
      { p1 with world := { p1.world with
          history := some (old ++ (historyLine message t).take written) } })
  | none =>
    .ret () { p1 with world := { p1.world with history := some (old ++ historyLine message t) } }

/-! ## `main` -/

/-- The `backupFolder` of `main.go:41`. -/
def backupFolderOf (cfg : Config) : String := cfg.backupFolderPrefix ++ "backup"

/-- The element `main.go:47` joins to the folder: prefix, time stamp, `.sql`. -/
def dumpElement (cfg : Config) (t : Time) : String :=
  cfg.backupFilePrefix ++ formatStamp t ++ ".sql"

/-- The `backupFileName` of `main.go:47`. -/
def backupFileNameOf (cfg : Config) (t : Time) : String :=
  Join [backupFolderOf cfg, dumpElement cfg t]

/-- Lines 56-62 of `main`: the upload and the history entry of its outcome. -/
def uploadStep (cfg : Config) (o : Oracle) (backupFileName : String) (p : Proc) : Res Unit :=
  match uploadToS3 o cfg.s3AccessKeyID cfg.s3SecretAccessKey cfg.s3Region cfg.s3BucketName
      cfg.s3Endpoint backupFileName p with
  | .crash p1 => .crash p1
  | .fatal p1 => .fatal p1
  | .ret (some e) p1 =>
    appendToBackupLog o.uploadLogFault o.uploadLogTime
      ("Failed to upload backup: " ++ backupFileName ++ ", error: " ++ e)
      (logf ("Error uploading to S3: " ++ e) p1)
  | .ret none p1 =>
    appendToBackupLog o.uploadLogFault o.uploadLogTime
      ("Successfully uploaded backup: " ++ backupFileName) p1

/-- Lines 64-73 of `main`: the deletion of the previous object, guarded by a
non-empty pointer, and the history entry of its outcome. -/
def deletePreviousStep (cfg : Config) (o : Oracle) (previousBackupFile : String) (p : Proc) :
    Res Unit :=
  if previousBackupFile ≠ "" then
    match deleteFromS3 o cfg.s3AccessKeyID cfg.s3SecretAccessKey cfg.s3Region cfg.s3BucketName
        cfg.s3Endpoint previousBackupFile p with
    | (some e, p1) =>
      appendToBackupLog o.deleteLogFault o.deleteLogTime
        ("Failed to delete previous backup: " ++ previousBackupFile ++ ", error: " ++ e)
        (logf ("Error deleting previous backup file from S3: " ++ e) p1)
    | (none, p1) =>
      appendToBackupLog o.deleteLogFault o.deleteLogTime
        ("Successfully deleted previous backup: " ++ previousBackupFile) p1
  else .ret () p

/-- Lines 75-85 of `main`: the pointer update, the removal of the local dump
file and the final line. -/
def finishStep (o : Oracle) (backupFileName : String) (p : Proc) : Run :=
  match saveCurrentBackupLog o (Base backupFileName) p with
  | .fatal p1 => ⟨.fatal, p1⟩
  | .crash p1 => ⟨.crashed, p1⟩
  | .ret () p1 =>
  match deleteLocalBackup o backupFileName p1 with
  | (some e, p2) => ⟨.fatal, logf ("Error deleting local backup file: " ++ e) p2⟩
  | (none, p2) =>
    ⟨.success,
      logf "Backup and upload completed successfully, and the local backup file was deleted." p2⟩

/-- Lines 55-85 of `main`: what follows a successful dump. -/
def afterDump (cfg : Config) (o : Oracle) (backupFileName : String) (p : Proc) : Run :=
  match readPreviousBackupLog o p with
  | .fatal p1 => ⟨.fatal, p1⟩
  | .crash p1 => ⟨.crashed, p1⟩
  | .ret previousBackupFile p1 =>
  match uploadStep cfg o backupFileName p1 with
  | .fatal p2 => ⟨.fatal, p2⟩
  | .crash p2 => ⟨.crashed, p2⟩
  | .ret () p2 =>
  match deletePreviousStep cfg o previousBackupFile p2 with
  | .fatal p3 => ⟨.fatal, p3⟩
  | .crash p3 => ⟨.crashed, p3⟩
  | .ret () p3 => finishStep o backupFileName p3

/-- Go `main` (`main.go:21-85`), run with settings `cfg` in world `w` against the
answers `o`. -/
def main (cfg : Config) (o : Oracle) (w : World) : Run :=
  let p0 : Proc := ⟨w, [], [.loadEnv o.envLoad]⟩
  match o.envLoad with
  | some _ => ⟨.fatal, logf "Error loading .env file" p0⟩
  | none =>
  match createBackupFolder o (backupFolderOf cfg) p0 with
  | (some e, p1) => ⟨.fatal, logf ("Error creating backup folder: " ++ e) p1⟩
  | (none, p1) =>
  let backupFileName := backupFileNameOf cfg o.now
  match backupMySQL o cfg.dbUser cfg.dbPassword cfg.dbHost cfg.dbPort backupFileName p1 with
  | (some e, p2) => ⟨.fatal, logf ("Error backing up MySQL: " ++ e) p2⟩
  | (none, p2) => afterDump cfg o backupFileName p2

/-! ## Observations on a run -/

/-- The state a function is run in to read off what it returns and records. -/
def Proc.blank : Proc := ⟨⟨none, none, []⟩, [], []⟩

/-- The error `uploadToS3` returns under the answers `o` (`none` also when it
does not return). -/
def uploadErr (o : Oracle) : Option String :=
  match uploadToS3 o "" "" "" "" "" "" Proc.blank with
  | .ret err _ => err
  | _ => none

/-- Whether the Go runtime ends the process in `uploadToS3`: the call gets as far
as asking for the buffer, and the buffer cannot be provided. -/
def uploadCrashes (o : Oracle) : Bool :=
  o.uploadOpen.isNone && o.uploadStat.isNone && o.uploadSession.isNone && o.uploadBufferFails

/-- Whether `uploadToS3` gets as far as its `PutObject` request: opening,
inspecting and reading the file, creating the session and getting the buffer
all succeed. -/
def uploadReachesPut (o : Oracle) : Bool :=
  o.uploadOpen.isNone && o.uploadStat.isNone && o.uploadSession.isNone &&
    !o.uploadBufferFails && o.uploadRead.isNone

/-- The events an `uploadToS3` that returns records for bucket `b` and file `f`:
the `PutObject` request if it is reached, then the call. -/
def uploadEvents (o : Oracle) (b f : String) : List Event :=
  (if uploadReachesPut o then [Event.putObject b (Base f) o.putObject] else []) ++
    [Event.uploadToS3 f (uploadErr o)]

/-- The error `deleteFromS3` returns under the answers `o`. -/
def deleteErr (o : Oracle) : Option String := (deleteFromS3 o "" "" "" "" "" "" Proc.blank).1

/-- The events `deleteFromS3` records for bucket `b` and key `k`. -/
def deleteEvents (o : Oracle) (b k : String) : List Event :=
  (deleteFromS3 o "" "" "" b "" k Proc.blank).2.trace

/-- The logger lines `deleteFromS3` writes for key `k`. -/
def deleteLogs (o : Oracle) (k : String) : List String :=
  (deleteFromS3 o "" "" "" "" "" k Proc.blank).2.log

/-- The keys of the calls of `deleteFromS3` in a trace, in order. -/
def deleteCalls (tr : List Event) : List String :=
  tr.filterMap fun ev => match ev with
    | .deleteFromS3 k _ => some k
    | _ => none

/-- The file names of the calls of `uploadToS3` in a trace, in order, those the
process ended in included. -/
def uploadCalls (tr : List Event) : List String :=
  tr.filterMap fun ev => match ev with
    | .uploadToS3 f _ => some f
    | .uploadCrash f => some f
    | _ => none

/-- The object keys of the `PutObject` requests in a trace, in order. -/
def putKeys (tr : List Event) : List String :=
  tr.filterMap fun ev => match ev with
    | .putObject _ k _ => some k
    | _ => none

/-- The values of the writes of the pointer file in a trace, in order. -/
def pointerWrites (tr : List Event) : List String :=
  tr.filterMap fun ev => match ev with
    | .writePointer v _ => some v
    | _ => none

/-- The reads of the pointer file in a trace, in order. -/
def pointerReads (tr : List Event) : List ReadResult :=
  tr.filterMap fun ev => match ev with
    | .readPointer r => some r
    | _ => none

/-- The paths of the `os.Remove` calls in a trace, in order. -/
def removeCalls (tr : List Event) : List String :=
  tr.filterMap fun ev => match ev with
    | .remove f _ => some f
    | _ => none

/-- The messages of the history appends in a trace, in order. -/
def historyAppends (tr : List Event) : List String :=
  tr.filterMap fun ev => match ev with
    | .appendHistory m _ => some m
    | _ => none

/-- The errors `mysqldump` ended with in a trace (`none`: it succeeded). -/
def dumpResults (tr : List Event) : List (Option String) :=
  tr.filterMap fun ev => match ev with
    | .mysqldump _ r => some r
    | _ => none

/-- The errors the calls of `uploadToS3` returned in a trace. -/
def uploadResults (tr : List Event) : List (Option String) :=
  tr.filterMap fun ev => match ev with
    | .uploadToS3 _ r => some r
    | _ => none

/-- The errors the calls of `deleteFromS3` returned in a trace. -/
def deleteResults (tr : List Event) : List (Option String) :=
  tr.filterMap fun ev => match ev with
    | .deleteFromS3 _ r => some r
    | _ => none

/-- The errors of the `os.Remove` calls in a trace (`none`: it succeeded). -/
def removeResults (tr : List Event) : List (Option String) :=
  tr.filterMap fun ev => match ev with
    | .remove _ r => some r
    | _ => none

/-- The failures section 7 of the specification lists as fatal: configuration
load, folder creation, dump, pointer read other than not-found, pointer write,
local dump-file deletion. -/
def Event.listedFailure : Event → Bool
  | .loadEnv (some _) => true
  | .mkdir _ (some _) => true
  | .mysqldump _ (some _) => true
  | .readPointer (.failed _) => true
  | .writePointer _ (some _) => true
  | .remove _ (some _) => true
  | _ => false

/-- A failed access to the pointer file: a read error other than not-found, or
a failed write. -/
def Event.pointerFailure : Event → Bool
  | .readPointer (.failed _) => true
  | .writePointer _ (some _) => true
  | _ => false

/-- A failed append to the history log (open or write). -/
def Event.historyFailure : Event → Bool
  | .appendHistory _ (some _) => true
  | _ => false

/-- The Go runtime ends the process: the buffer for the dump file cannot be
provided in `uploadToS3`. -/
def Event.runtimeFailure : Event → Bool
  | .uploadCrash _ => true
  | _ => false

/-- The last line `main` logs on success (`main.go:84`). -/
def successLine : String :=
  "Backup and upload completed successfully, and the local backup file was deleted."

/-! ## The states of a run in closed form -/

/-- The message `main` hands to the history log for the outcome `err` of the
upload of `f` (`main.go:59`, `main.go:61`). -/
def uploadMessage (f : String) (err : Option String) : String :=
  match err with
  | some e => "Failed to upload backup: " ++ f ++ ", error: " ++ e
  | none => "Successfully uploaded backup: " ++ f

/-- The message `main` hands to the history log for the outcome `err` of the
deletion of `k` (`main.go:69`, `main.go:71`). -/
def deleteMessage (k : String) (err : Option String) : String :=
  match err with
  | some e => "Failed to delete previous backup: " ++ k ++ ", error: " ++ e
  | none => "Successfully deleted previous backup: " ++ k

/-- The logger line `main` writes for the outcome of the upload. -/
def uploadLogLines (err : Option String) : List String :=
  match err with
  | some e => ["Error uploading to S3: " ++ e]
  | none => []

/-- The logger line `main` writes for the outcome of the deletion. -/
def deleteLogLines (err : Option String) : List String :=
  match err with
  | some e => ["Error deleting previous backup file from S3: " ++ e]
  | none => []

/-- The arguments `backupMySQL` runs `mysqldump` with (`main.go:101`). -/
def dumpArgs (cfg : Config) (f : String) : List String :=
  ["--all-databases", "-u" ++ cfg.dbUser, "-p" ++ cfg.dbPassword, "-h" ++ cfg.dbHost,
    "-P" ++ cfg.dbPort, "-r", f]

/-- The events of `createBackupFolder`. -/
def folderEvents (cfg : Config) (o : Oracle) : List Event :=
  if o.folderMissing then [.mkdir (backupFolderOf cfg) o.mkdir] else []

/-- The logger lines of a `createBackupFolder` that does not fail. -/
def folderLogs (cfg : Config) (o : Oracle) : List String :=
  if o.folderMissing then ["Backup folder created: " ++ backupFolderOf cfg] else []

/-- The state in which `main` reaches line 55 after a successful dump. -/
def dumped (cfg : Config) (o : Oracle) (w : World) : Proc :=
  ⟨{ w with files := backupFileNameOf cfg o.now :: w.files }, folderLogs cfg o,
    [.loadEnv none] ++ folderEvents cfg o ++
      [.mysqldump (dumpArgs cfg (backupFileNameOf cfg o.now)) none]⟩

/-- The value `readPreviousBackupLog` returns when the read does not fail. -/
def previousOf (w : World) : String := w.pointer.getD ""

/-- The answer of a read of the pointer file that does not fail. -/
def readOf (w : World) : ReadResult :=
  match w.pointer with
  | none => .notExist
  | some d => .data d

/-- The state after a `readPreviousBackupLog` that returns. -/
def readDone (p : Proc) : Proc := ⟨p.world, p.log, p.trace ++ [.readPointer (readOf p.world)]⟩

/-- The state in which `readPreviousBackupLog` exits on the read error `e`. -/
def readFailed (e : String) (p : Proc) : Proc :=
  ⟨p.world, p.log ++ ["Failed to read previous backup log: " ++ e],
    p.trace ++ [.readPointer (.failed e)]⟩

/-- The state after an `appendToBackupLog` that returns. -/
def appendDone (t : Time) (m : String) (p : Proc) : Proc :=
  ⟨{ p.world with history := some (p.world.history.getD "" ++ historyLine m t) }, p.log,
    p.trace ++ [.appendHistory m none]⟩

/-- What a failed append leaves of the history file that held `h`, `line` being
the text it was to write. -/
def AppendFault.leaves (fl : AppendFault) (h : Option String) (line : String) : Option String :=
  match fl with
  | .openFailed _ => h
  | .writeFailed _ n => some (h.getD "" ++ line.take n)

/-- The fatal line `appendToBackupLog` logs on the fault. -/
def AppendFault.fatalLine (fl : AppendFault) : String :=
  match fl with
  | .openFailed e => "Failed to open backup history log: " ++ e
  | .writeFailed e _ => "Failed to write to backup history log: " ++ e

/-- The state in which `appendToBackupLog` exits on the fault `fl`. -/
def appendFailed (fl : AppendFault) (t : Time) (m : String) (p : Proc) : Proc :=
  ⟨{ p.world with history := fl.leaves p.world.history (historyLine m t) },
    p.log ++ [fl.fatalLine], p.trace ++ [.appendHistory m (some fl)]⟩

/-- The state in which `main` calls `appendToBackupLog` for the upload. -/
def uploadTried (cfg : Config) (o : Oracle) (f : String) (p : Proc) : Proc :=
  ⟨p.world, p.log ++ uploadLogLines (uploadErr o), p.trace ++ uploadEvents o cfg.s3BucketName f⟩

/-- The state in which the Go runtime ends the process in `uploadToS3`. -/
def uploadCrashed (f : String) (p : Proc) : Proc :=
  ⟨p.world, p.log, p.trace ++ [.uploadCrash f]⟩

/-- The state in which `main` calls `appendToBackupLog` for the deletion of `k`. -/
def deleteTried (cfg : Config) (o : Oracle) (k : String) (p : Proc) : Proc :=
  ⟨p.world, p.log ++ deleteLogs o k ++ deleteLogLines (deleteErr o),
    p.trace ++ deleteEvents o cfg.s3BucketName k⟩

/-- The state after a `saveCurrentBackupLog` that returns. -/
def saveDone (v : String) (p : Proc) : Proc :=
  ⟨{ p.world with pointer := some v }, p.log, p.trace ++ [.writePointer v none]⟩

/-- The state in which `saveCurrentBackupLog` exits on the fault `wf`. -/
def saveFailed (wf : WriteFault) (v : String) (p : Proc) : Proc :=
  ⟨{ p.world with pointer := wf.left }, p.log ++ ["Failed to write current backup to log: " ++ wf.err],
    p.trace ++ [.writePointer v (some wf)]⟩

/-- The state in which `main` exits when `deleteLocalBackup` fails with `e`. -/
def removeFailed (e f : String) (p : Proc) : Proc :=
  ⟨p.world, p.log ++ ["Error deleting local backup file: " ++ ("failed to delete file: " ++ e)],
    p.trace ++ [.remove f (some e)]⟩

/-- The state in which `main` ends a run that succeeds. -/
def removeDone (f : String) (p : Proc) : Proc :=
  ⟨{ p.world with files := p.world.files.filter (· ≠ f) },
    p.log ++ ["Successfully deleted local backup file: " ++ f, successLine],
    p.trace ++ [.remove f none]⟩

/-- The state after the upload step of a run whose upload entry was appended. -/
def uploaded (cfg : Config) (o : Oracle) (f : String) (p : Proc) : Proc :=
  appendDone o.uploadLogTime (uploadMessage f (uploadErr o)) (uploadTried cfg o f (readDone p))

/-- The state after the delete-previous step for the previous name `k`, entered
in state `q`, of a run whose delete entry (if any) was appended. -/
def deletedWith (cfg : Config) (o : Oracle) (k : String) (q : Proc) : Proc :=
  if k = "" then q
  else appendDone o.deleteLogTime (deleteMessage k (deleteErr o)) (deleteTried cfg o k q)

/-- The state after the delete-previous step of a run whose history entries
were appended. -/
def deleted (cfg : Config) (o : Oracle) (f : String) (p : Proc) : Proc :=
  deletedWith cfg o (previousOf p.world) (uploaded cfg o f p)

/-- The run reaches and passes the dump: settings loaded, folder step and
`mysqldump` without error. -/
def DumpOk (o : Oracle) : Prop :=
  o.envLoad = none ∧ (o.folderMissing = true → o.mkdir = none) ∧ o.dump = none

/-- The number of line breaks in a text. -/
def lineBreaks (s : String) : Nat := s.data.count '\n'

/-! ## Notions for the loop of `filepath.Clean` -/

/-- The loop of `Clean` run with exactly the fuel the remaining path allows. -/
def cleanRun (rooted : Bool) (path : List Char) (st : List Char × Nat) : List Char × Nat :=
  cleanLoop rooted path.length path st

/-- The state update of the `..` case of `Clean`. -/
def dotdotStep (rooted : Bool) (st : List Char × Nat) : List Char × Nat :=
  if st.1.length > st.2 then (backtrack st.2 st.1, st.2)
  else if rooted = false then
    ('.' :: '.' :: (if st.1.length > 0 then '/' :: st.1 else st.1),
      ('.' :: '.' :: (if st.1.length > 0 then '/' :: st.1 else st.1)).length)
  else st

/-- The output buffer after "add slash if needed" of the default case of `Clean`. -/
def withSep (rooted : Bool) (out : List Char) : List Char :=
  if (rooted = true ∧ out.length ≠ 1) ∨ (rooted = false ∧ out.length ≠ 0) then '/' :: out
  else out

/-- The state update of the default case of `Clean` for the element `comp`. -/
def elemStep (rooted : Bool) (comp : List Char) (st : List Char × Nat) : List Char × Nat :=
  (comp.reverse ++ withSep rooted st.1, st.2)

/-- The rest of a path after a complete element: nothing, or a separator first. -/
def AtBoundary (tl : List Char) : Prop := tl = [] ∨ tl.head? = some '/'

/-- A real path element: not empty, no separator inside, neither `.` nor `..`. -/
def IsElem (comp : List Char) : Prop :=
  comp ≠ [] ∧ (∀ x ∈ comp, x ≠ '/') ∧ comp ≠ ['.'] ∧ comp ≠ ['.', '.']

/-- The states of the loop of `Clean` that are built from the initial state by
writing `..` elements (unrooted paths only, and only while nothing else is
written) and real elements. -/
inductive Canon (rooted : Bool) : List Char × Nat → Prop where
  | init : Canon rooted (cleanInit rooted)
  | dots {out : List Char} : rooted = false → Canon rooted (out, out.length) →
      Canon rooted (dotdotStep rooted (out, out.length))
  | elem {st : List Char × Nat} {comp : List Char} : Canon rooted st → IsElem comp →
      Canon rooted (elemStep rooted comp st)

/-- What `Clean` hands to its loop: the path without the leading slash of a
rooted path. -/
def pathBody (rooted : Bool) (path : List Char) : List Char :=
  if rooted then path.tail else path

/-! ## Sample inputs -/

/-- Sample settings: no folder prefix, file prefix `db_`. -/
def cfgA : Config :=
  ⟨"root", "pw", "localhost", "3306", "ak", "sk", "us-east-1", "bucket", "", "", "db_"⟩

/-- Sample time: 2024-01-02 03:04:05 UTC. -/
def timeA : Time := ⟨2024, 1, 2, 3, 4, 5, 0⟩

/-- Sample answers: every external call succeeds, the folder already exists. -/
def oracleOk : Oracle :=
  { envLoad := none, folderMissing := false, mkdir := none, now := timeA, dump := none,
    dumpLeavesFile := false, pointerRead := none, uploadOpen := none, uploadStat := none,
    uploadSession := none, uploadBufferFails := false, uploadRead := none, putObject := none,
    uploadLogFault := none,
    uploadLogTime := timeA, deleteSession := none, deleteObject := none, deleteLogFault := none,
    deleteLogTime := timeA, pointerWrite := none, remove := none }

/-- Sample answers: everything succeeds but the history log cannot be opened. -/
def oracleHistoryLocked : Oracle :=
  { oracleOk with uploadLogFault := some (.openFailed "permission denied") }

/-- Sample answers: `PutObject` fails and the history log cannot be opened. -/
def oraclePutFailsHistoryLocked : Oracle :=
  { oracleOk with putObject := some "timeout",
                  uploadLogFault := some (.openFailed "permission denied") }

/-- Sample answers: `PutObject` and `DeleteObject` both fail, nothing else does. -/
def oracleS3Down : Oracle :=
  { oracleOk with putObject := some "timeout", deleteObject := some "timeout" }

/-- Sample answers: `mysqldump` fails. -/
def oracleDumpFails : Oracle := { oracleOk with dump := some "exit status 2" }

/-- Sample answers: `os.Remove` fails. -/
def oracleRemoveFails : Oracle := { oracleOk with remove := some "permission denied" }

/-- Sample answers: S3 refuses the upload; the error text is laid out the way
aws-sdk-go lays out a request failure, over two lines. -/
def oracleAccessDenied : Oracle :=
  { oracleOk with putObject := some "AccessDenied: Access Denied\n\tstatus code: 403" }

/-- Sample answers: the pointer file cannot be written; the failed write leaves
it truncated. -/
def oraclePointerWriteFails : Oracle :=
  { oracleOk with pointerWrite := some ⟨"no space left on device", some ""⟩ }

/-- Sample answers: the pointer file exists but cannot be read. -/
def oraclePointerReadFails : Oracle := { oracleOk with pointerRead := some "permission denied" }

/-- Sample answers: the dump succeeds, but the dump file is too large for the
buffer `uploadToS3` asks for; nothing else fails. -/
def oracleDumpTooLarge : Oracle := { oracleOk with uploadBufferFails := true }

/-- Sample world: the pointer names an earlier backup, there is no history yet. -/
def worldOld : World := ⟨some "db_old.sql", none, []⟩

/-- Sample world: the first run, no pointer file. -/
def worldFresh : World := ⟨none, none, []⟩

/-- Sample world: the pointer file exists and is empty. -/
def worldEmptyPointer : World := ⟨some "", none, []⟩

/-- Sample time of a following run: 2024-01-03 03:04:05 UTC. -/
def timeB : Time := ⟨2024, 1, 3, 3, 4, 5, 0⟩

/-- Sample world a following run starts in: the pointer left by
`main cfgA oracleS3Down worldOld`, its history and no dump file. -/
def worldNext : World := (main cfgA oracleS3Down worldOld).final.world

/-- Sample settings with a file prefix that holds a separator. -/
def cfgSlashInFilePrefix : Config := { cfgA with backupFilePrefix := "daily/" }

/-- Sample settings with a folder prefix that is not in clean form. -/
def cfgDotFolderPrefix : Config := { cfgA with backupFolderPrefix := "./" }

/-! ## The embedding of the standard library against its documented behaviour -/

/-- The embedded `Clean` on cases of the table Go's own tests check it with. -/
theorem Clean_samples :
    Clean "" = "." ∧ Clean "abc" = "abc" ∧ Clean "abc/def" = "abc/def" ∧ Clean "." = "." ∧
    Clean ".." = ".." ∧ Clean "../.." = "../.." ∧ Clean "../../abc" = "../../abc" ∧
    Clean "/abc" = "/abc" ∧ Clean "/" = "/" ∧ Clean "abc/" = "abc" ∧ Clean "./" = "." ∧
    Clean "../../" = "../.." ∧ Clean "/abc/" = "/abc" ∧
    Clean "abc//def//ghi" = "abc/def/ghi" ∧ Clean "///abc" = "/abc" ∧ Clean "//abc//" = "/abc" ∧
    Clean "abc/./def" = "abc/def" ∧ Clean "/./abc/def" = "/abc/def" ∧ Clean "abc/." = "abc" ∧
    Clean "abc/def/ghi/../jkl" = "abc/def/jkl" ∧ Clean "abc/def/../ghi/../jkl" = "abc/jkl" ∧
    Clean "abc/def/.." = "abc" ∧ Clean "abc/def/../.." = "." ∧ Clean "/abc/def/../.." = "/" ∧
    Clean "abc/def/../../.." = ".." ∧ Clean "/abc/def/../../.." = "/" ∧
    Clean "abc/def/../../../ghi/jkl/../../../mno" = "../../mno" ∧ Clean "/../abc" = "/abc" ∧
    Clean "abc/./../def" = "def" ∧ Clean "abc//./../def" = "def" ∧
    Clean "abc/../../././../def" = "../../def" := by
  decide

/-- The embedded `Base`, `Dir` and `Join` on cases of the tables Go's own tests
check them with. -/
theorem Base_Dir_Join_samples :
    Base "" = "." ∧ Base "." = "." ∧ Base "/." = "." ∧ Base "/" = "/" ∧ Base "////" = "/" ∧
    Base "x/" = "x" ∧ Base "abc" = "abc" ∧ Base "abc/def" = "def" ∧ Base "a/b/.x" = ".x" ∧
    Base "a/b/c." = "c." ∧ Base "a/b/c.x" = "c.x" ∧
    Dir "" = "." ∧ Dir "." = "." ∧ Dir "/." = "/" ∧ Dir "/" = "/" ∧ Dir "////" = "/" ∧
    Dir "/foo" = "/" ∧ Dir "x/" = "x" ∧ Dir "abc" = "." ∧ Dir "abc/def" = "abc" ∧
    Dir "a/b/.x" = "a/b" ∧ Dir "a/b/c." = "a/b" ∧ Dir "a/b/c.x" = "a/b" ∧
    Join [] = "" ∧ Join [""] = "" ∧ Join ["a"] = "a" ∧ Join ["a", "b"] = "a/b" ∧
    Join ["a", ""] = "a" ∧ Join ["", "b"] = "b" ∧ Join ["/", "a"] = "/a" ∧
    Join ["/", ""] = "/" ∧ Join ["a/", "b"] = "a/b" ∧ Join ["a/", ""] = "a" ∧
    Join ["", ""] = "" := by
  decide

/-- The two layouts on sample times, zones east and west of UTC included. -/
theorem format_samples :
    formatStamp ⟨2024, 1, 2, 3, 4, 5, 0⟩ = "20240102_030405" ∧
    formatStamp ⟨1999, 12, 31, 23, 59, 59, 3600⟩ = "19991231_235959" ∧
    formatRFC3339 ⟨2024, 1, 2, 3, 4, 5, 0⟩ = "2024-01-02T03:04:05Z" ∧
    formatRFC3339 ⟨2024, 1, 2, 3, 4, 5, 25200⟩ = "2024-01-02T03:04:05+07:00" ∧
    formatRFC3339 ⟨2024, 1, 2, 3, 4, 5, -12600⟩ = "2024-01-02T03:04:05-03:30" := by
  decide

/-- The fuel `appendInt` gives `digitsRev` is enough: more changes nothing. -/
theorem digitsRev_fuel : ∀ (fuel u : Nat), u ≤ fuel →
    digitsRev (fuel + 1) u = digitsRev fuel u := by
  intro fuel
  induction fuel with
  | zero =>
    intro u h
    have : u = 0 := Nat.le_zero.mp h
    subst this
    rfl
  | succ n ih =>
    intro u h
    rw [digitsRev.eq_2 u (n + 1), digitsRev.eq_2 u n]
    by_cases hu : u ≥ 10
    · rw [if_pos hu, if_pos hu, ih (u / 10) (by omega)]
    · rw [if_neg hu, if_neg hu]

/-! ## `time.Format`: the characters of a stamp -/

/-- A decimal digit character is none of the characters below `'0'`. -/
theorem utod_ne_below (u : Nat) (h : u < 10) (c : Char) (hc : c.toNat < 48) : utod u ≠ c := by
  unfold utod
  intro he
  rw [← he] at hc
  revert hc
  interval_cases u <;> decide

/-- The slow path of `appendInt` writes decimal digits only. -/
theorem digitsRev_ne_below (c : Char) (hc : c.toNat < 48) :
    ∀ (fuel u : Nat), ∀ x ∈ digitsRev fuel u, x ≠ c := by
  intro fuel
  induction fuel with
  | zero =>
    intro u x hx
    simp only [digitsRev, List.mem_singleton] at hx
    rw [hx]
    exact utod_ne_below _ (Nat.mod_lt _ (by decide)) c hc
  | succ n ih =>
    intro u x hx
    unfold digitsRev at hx
    split at hx
    · rcases List.mem_cons.mp hx with rfl | hx
      · exact utod_ne_below _ (Nat.mod_lt _ (by decide)) c hc
      · exact ih _ x hx
    · rw [List.mem_singleton] at hx
      rw [hx]
      exact utod_ne_below _ (by omega) c hc

/-- The characters `appendInt` writes are decimal digits: none is a character
below `'0'`, such as the separator `/` or a line break. -/
theorem appendInt_ne_below (c : Char) (hc : c.toNat < 48) (v width : Nat) :
    ∀ x ∈ appendInt v width, x ≠ c := by
  intro x hx
  unfold appendInt at hx
  split at hx
  · rename_i h
    simp only [List.mem_cons, List.mem_singleton, List.not_mem_nil, or_false] at hx
    rcases hx with rfl | rfl
    · exact utod_ne_below _ (by omega) c hc
    · exact utod_ne_below _ (by omega) c hc
  · split at hx
    · rename_i h
      simp only [List.mem_cons, List.mem_singleton, List.not_mem_nil, or_false] at hx
      rcases hx with rfl | rfl | rfl | rfl
      · exact utod_ne_below _ (by omega) c hc
      · exact utod_ne_below _ (by omega) c hc
      · exact utod_ne_below _ (by omega) c hc
      · exact utod_ne_below _ (by omega) c hc
    · rcases List.mem_append.mp hx with hx | hx
      · have := List.eq_of_mem_replicate hx
        rw [this]
        intro he
        rw [← he] at hc
        revert hc
        decide
      · exact digitsRev_ne_below c hc _ _ x (List.mem_reverse.mp hx)

/-- The output of `appendInt` holds no separator. -/
theorem appendInt_no_slash (v width : Nat) : ∀ x ∈ appendInt v width, x ≠ '/' :=
  appendInt_ne_below '/' (by decide) v width

/-- The output of `appendInt` holds no line break. -/
theorem appendInt_no_newline (v width : Nat) : ∀ x ∈ appendInt v width, x ≠ '\n' :=
  appendInt_ne_below '\n' (by decide) v width

/-- The zone suffix holds no line break. -/
theorem formatZone_no_newline (offset : Int) : ∀ x ∈ formatZone offset, x ≠ '\n' := by
  intro x hx
  unfold formatZone at hx
  split at hx
  · rw [List.mem_singleton] at hx
    rw [hx]
    decide
  · simp only [List.mem_cons, List.mem_append, List.mem_singleton, List.not_mem_nil,
      or_false] at hx
    rcases hx with hx | (hx | hx) | hx
    · rw [hx]
      split <;> decide
    · exact appendInt_no_newline _ _ x hx
    · rw [hx]
      decide
    · exact appendInt_no_newline _ _ x hx

/-- An RFC 3339 time stamp holds no line break. -/
theorem formatRFC3339_no_newline (t : Time) : ∀ x ∈ (formatRFC3339 t).data, x ≠ '\n' := by
  intro x hx
  simp only [formatRFC3339, List.mem_append, List.mem_singleton] at hx
  rcases hx with (((((((((((hx | hx) | hx) | hx) | hx) | hx) | hx) | hx) | hx) | hx) | hx) | hx)
  all_goals first
    | exact appendInt_no_newline _ _ x hx
    | exact formatZone_no_newline _ x hx
    | (rw [hx]; decide)

/-- An entry of the history log is a single line when its message holds no
line break. -/
theorem historyLine_single_line (m : String) (t : Time) (hm : ∀ x ∈ m.data, x ≠ '\n') :
    lineBreaks (historyLine m t) = 1 := by
  have h1 : m.data.count '\n' = 0 :=
    List.count_eq_zero.mpr (fun hc => hm _ hc rfl)
  have h2 : (formatRFC3339 t).data.count '\n' = 0 :=
    List.count_eq_zero.mpr (fun hc => formatRFC3339_no_newline t _ hc rfl)
  have hd : (historyLine m t).data
      = m.data ++ [' ', 'a', 't', ' '] ++ (formatRFC3339 t).data ++ ['\n'] := by
    simp [historyLine, String.data_append]
  unfold lineBreaks
  rw [hd]
  simp only [List.count_append, h1, h2]
  decide

/-- The time stamp of a dump file name holds no separator. -/
theorem formatStamp_no_slash (t : Time) : ∀ x ∈ (formatStamp t).data, x ≠ '/' := by
  intro x hx
  simp only [formatStamp, List.mem_append, List.mem_singleton] at hx
  rcases hx with ((((((hx | hx) | hx) | hx) | hx) | hx) | hx)
  all_goals first
    | exact appendInt_no_slash _ _ x hx
    | (rw [hx]; decide)

/-- A two-digit field below 100 is written with two characters. -/
theorem appendInt_two_length (v : Nat) (h : v < 100) : (appendInt v 2).length = 2 := by
  unfold appendInt
  rw [if_pos ⟨rfl, h⟩]
  rfl

/-- A four-digit field below 10000 is written with four characters. -/
theorem appendInt_four_length (v : Nat) (h : v < 10000) : (appendInt v 4).length = 4 := by
  unfold appendInt
  rw [if_neg (by simp), if_pos ⟨rfl, h⟩]
  rfl

/-- The time stamp of a dump file name has 15 characters up to the year 9999. -/
theorem formatStamp_length (t : Time) (h : t.year < 10000) : (formatStamp t).length = 15 := by
  have h1 := appendInt_four_length t.year h
  have h2 := appendInt_two_length t.month (by omega)
  have h3 := appendInt_two_length t.day (by omega)
  have h4 := appendInt_two_length t.hour (by omega)
  have h5 := appendInt_two_length t.minute (by omega)
  have h6 := appendInt_two_length t.second (by omega)
  show (formatStamp t).data.length = 15
  simp only [formatStamp, List.length_append, List.length_singleton, h1, h2, h3, h4, h5, h6]

/-! ## `filepath.Clean`: the loop -/

/-- The element copied by the default case ends at the first separator. -/
theorem takeWhile_notSlash_append (x tl : List Char) :
    (x ++ '/' :: tl).takeWhile (· ≠ '/') = x.takeWhile (· ≠ '/') := by
  induction x with
  | nil => simp
  | cons c x ih =>
    by_cases hc : c = '/'
    · simp [hc]
    · simp only [List.cons_append, List.takeWhile_cons, hc, ne_eq, not_false_eq_true,
        decide_True, if_true, ih]

/-- What the default case leaves starts at the first separator. -/
theorem dropWhile_notSlash_append (x tl : List Char) :
    (x ++ '/' :: tl).dropWhile (· ≠ '/') = x.dropWhile (· ≠ '/') ++ '/' :: tl := by
  induction x with
  | nil => simp
  | cons c x ih =>
    by_cases hc : c = '/'
    · simp [hc]
    · simp only [List.cons_append, List.dropWhile_cons, hc, ne_eq, not_false_eq_true,
        decide_True, if_true, ih]

/-- Dropping characters does not lengthen the path. -/
theorem dropWhile_length_le (p : Char → Bool) (x : List Char) :
    (x.dropWhile p).length ≤ x.length := by
  induction x with
  | nil => simp
  | cons c x ih =>
    rw [List.dropWhile_cons]
    split
    · exact Nat.le_succ_of_le ih
    · exact Nat.le_refl _

/-- More fuel than the path is long changes nothing. -/
theorem cleanLoop_fuel (rooted : Bool) :
    ∀ (fuel : Nat) (path : List Char) (st : List Char × Nat), path.length ≤ fuel →
      cleanLoop rooted (fuel + 1) path st = cleanLoop rooted fuel path st := by
  intro fuel
  induction fuel with
  | zero =>
    intro path st h
    have : path = [] := List.length_eq_zero.mp (Nat.le_zero.mp h)
    subst this
    rfl
  | succ n ih =>
    intro path st h
    cases path with
    | nil => rfl
    | cons c rest =>
      obtain ⟨out, dotdot⟩ := st
      have hr : rest.length ≤ n := by simpa using h
      have ht : rest.tail.length ≤ n := by
        have := List.length_tail rest
        omega
      have hd : ((c :: rest).dropWhile (· ≠ '/')).length ≤ n ∨ c = '/' := by
        by_cases hc : c = '/'
        · exact Or.inr hc
        · left
          have h1 : (c :: rest).dropWhile (· ≠ '/') = rest.dropWhile (· ≠ '/') := by
            simp [List.dropWhile_cons, hc]
          rw [h1]
          exact Nat.le_trans (dropWhile_length_le _ rest) hr
      rw [cleanLoop, cleanLoop.eq_3 rooted n c rest out dotdot]
      by_cases hc : c = '/'
      · simp only [hc, if_true]
        exact ih _ _ hr
      · rcases hd with hd | hd
        · simp only [hc, if_false, ih _ _ hr, ih _ _ ht, ih _ _ hd]
        · exact absurd hd hc

/-- Any fuel of at least the length of the path gives the result of `cleanRun`. -/
theorem cleanLoop_fuel_ge (rooted : Bool) (path : List Char) (st : List Char × Nat) :
    ∀ fuel, path.length ≤ fuel → cleanLoop rooted fuel path st = cleanRun rooted path st := by
  intro fuel h
  induction fuel with
  | zero =>
    have : path = [] := List.length_eq_zero.mp (Nat.le_zero.mp h)
    subst this
    rfl
  | succ n ih =>
    by_cases hn : path.length ≤ n
    · rw [cleanLoop_fuel rooted n path st hn]
      exact ih hn
    · have : path.length = n + 1 := by omega
      rw [cleanRun, this]

/-- The loop ends when the path is used up. -/
theorem cleanRun_nil (rooted : Bool) (st : List Char × Nat) : cleanRun rooted [] st = st := rfl

/-- One round of the loop of `Clean`, with the fuel out of the way. -/
theorem cleanRun_cons (rooted : Bool) (c : Char) (rest : List Char) (st : List Char × Nat) :
    cleanRun rooted (c :: rest) st =
      if c = '/' then cleanRun rooted rest st
      else if c = '.' ∧ (rest = [] ∨ rest.head? = some '/') then cleanRun rooted rest st
      else if c = '.' ∧ rest.head? = some '.' ∧ (rest.tail = [] ∨ rest.tail.head? = some '/') then
        cleanRun rooted rest.tail (dotdotStep rooted st)
      else
        cleanRun rooted ((c :: rest).dropWhile (· ≠ '/'))
          (elemStep rooted ((c :: rest).takeWhile (· ≠ '/')) st) := by
  obtain ⟨out, dotdot⟩ := st
  have ht : rest.tail.length ≤ rest.length := by
    have := List.length_tail rest
    omega
  rw [cleanRun, List.length_cons, cleanLoop.eq_3 rooted rest.length c rest out dotdot]
  by_cases hc : c = '/'
  · simp only [hc, if_true]
    rfl
  · have hd : ((c :: rest).dropWhile (· ≠ '/')).length ≤ rest.length := by
      have h1 : (c :: rest).dropWhile (· ≠ '/') = rest.dropWhile (· ≠ '/') := by
        simp [List.dropWhile_cons, hc]
      rw [h1]
      exact dropWhile_length_le _ rest
    simp only [hc, if_false, cleanLoop_fuel_ge rooted _ _ _ ht, cleanLoop_fuel_ge rooted _ _ _ hd,
      cleanLoop_fuel_ge rooted _ _ _ (Nat.le_refl rest.length), dotdotStep, elemStep, withSep]
    split
    · rfl
    · split
      · split
        · rfl
        · split <;> rfl
      · rfl

/-- An empty path element is skipped. -/
theorem cleanRun_slash (rooted : Bool) (rest : List Char) (st : List Char × Nat) :
    cleanRun rooted ('/' :: rest) st = cleanRun rooted rest st := by
  rw [cleanRun_cons]
  simp

/-- A `..` element updates the state by `dotdotStep`. -/
theorem cleanRun_dotdot (rooted : Bool) (tl : List Char) (st : List Char × Nat)
    (h : AtBoundary tl) :
    cleanRun rooted ('.' :: '.' :: tl) st = cleanRun rooted tl (dotdotStep rooted st) := by
  rw [cleanRun_cons]
  have h1 : ¬ ('.' = '/') := by decide
  have h2 : ¬ (('.' : Char) = '.' ∧ (('.' :: tl) = [] ∨ ('.' :: tl).head? = some '/')) := by
    simp
  rw [if_neg h1, if_neg h2, if_pos]
  · rfl
  · exact ⟨rfl, rfl, h⟩

/-- The characters copied for an element that ends at a boundary are the element. -/
theorem takeWhile_elem (comp tl : List Char) (hc : ∀ x ∈ comp, x ≠ '/') (h : AtBoundary tl) :
    (comp ++ tl).takeWhile (· ≠ '/') = comp := by
  rcases h with rfl | h
  · rw [List.append_nil]
    exact List.takeWhile_eq_self_iff.mpr (by simpa using hc)
  · cases tl with
    | nil => simp at h
    | cons t tl =>
      have : t = '/' := by simpa using h
      subst this
      rw [takeWhile_notSlash_append]
      exact List.takeWhile_eq_self_iff.mpr (by simpa using hc)

/-- After an element that ends at a boundary the rest of the path remains. -/
theorem dropWhile_elem (comp tl : List Char) (hc : ∀ x ∈ comp, x ≠ '/') (h : AtBoundary tl) :
    (comp ++ tl).dropWhile (· ≠ '/') = tl := by
  have hd : comp.dropWhile (· ≠ '/') = [] :=
    List.dropWhile_eq_nil_iff.mpr (by simpa using hc)
  rcases h with rfl | h
  · rw [List.append_nil]
    exact hd
  · cases tl with
    | nil => simp at h
    | cons t tl =>
      have : t = '/' := by simpa using h
      subst this
      rw [dropWhile_notSlash_append, hd]
      rfl

/-- A real element updates the state by `elemStep`. -/
theorem cleanRun_elem (rooted : Bool) (comp tl : List Char) (st : List Char × Nat)
    (hc : IsElem comp) (h : AtBoundary tl) :
    cleanRun rooted (comp ++ tl) st = cleanRun rooted tl (elemStep rooted comp st) := by
  obtain ⟨hne, hns, hd1, hd2⟩ := hc
  cases comp with
  | nil => exact absurd rfl hne
  | cons c cs =>
    have hcs : c ≠ '/' := hns c (List.mem_cons_self _ _)
    have htw := takeWhile_elem (c :: cs) tl hns h
    have hdw := dropWhile_elem (c :: cs) tl hns h
    rw [List.cons_append] at htw hdw ⊢
    rw [cleanRun_cons, if_neg hcs, if_neg, if_neg, htw, hdw]
    · rintro ⟨rfl, h1, h2⟩
      cases cs with
      | nil =>
        rcases h with rfl | h
        · simp at h1
        · simp at h1
          rw [h] at h1
          simp at h1
      | cons d ds =>
        have hd : d = '.' := by simpa using h1
        subst hd
        cases ds with
        | nil => exact hd2 rfl
        | cons e es =>
          have he : e ≠ '/' := hns e (by simp)
          rcases h2 with h2 | h2
          · simp at h2
          · simp at h2
            exact he h2
    · rintro ⟨rfl, h1⟩
      cases cs with
      | nil => exact hd1 rfl
      | cons d ds =>
        have hd : d ≠ '/' := hns d (by simp)
        rcases h1 with h1 | h1
        · simp at h1
        · simp at h1
          exact hd h1

/-- A separator appended to `a` does not change whether `a` starts at a boundary. -/
theorem atBoundary_append_slash (a b : List Char) :
    AtBoundary (a ++ '/' :: b) ↔ AtBoundary a := by
  cases a with
  | nil => simp [AtBoundary]
  | cons x a => simp [AtBoundary]

/-- A separator in the path splits the run of the loop in two. -/
theorem cleanRun_append_slash (rooted : Bool) :
    ∀ (n : Nat) (a : List Char), a.length ≤ n → ∀ (b : List Char) (st : List Char × Nat),
      cleanRun rooted (a ++ '/' :: b) st = cleanRun rooted b (cleanRun rooted a st) := by
  intro n
  induction n with
  | zero =>
    intro a ha b st
    have : a = [] := List.length_eq_zero.mp (Nat.le_zero.mp ha)
    subst this
    rw [List.nil_append, cleanRun_slash, cleanRun_nil]
  | succ n ih =>
    intro a ha b st
    cases a with
    | nil => rw [List.nil_append, cleanRun_slash, cleanRun_nil]
    | cons c a =>
      have hl : a.length ≤ n := by simpa using ha
      rw [List.cons_append, cleanRun_cons, cleanRun_cons rooted c a]
      by_cases hc : c = '/'
      · rw [if_pos hc, if_pos hc]
        exact ih a hl b st
      · rw [if_neg hc, if_neg hc]
        have hb := atBoundary_append_slash a b
        unfold AtBoundary at hb
        by_cases hdot : c = '.' ∧ (a = [] ∨ a.head? = some '/')
        · rw [if_pos hdot, if_pos ⟨hdot.1, hb.mpr hdot.2⟩]
          exact ih a hl b st
        · have hdot2 : ¬ (c = '.' ∧ (a ++ '/' :: b = [] ∨ (a ++ '/' :: b).head? = some '/')) :=
            fun h => hdot ⟨h.1, hb.mp h.2⟩
          rw [if_neg hdot, if_neg hdot2]
          cases a with
          | nil =>
            have h1 : ¬ (c = '.' ∧ ([] : List Char).head? = some '.' ∧
                (([] : List Char).tail = [] ∨ ([] : List Char).tail.head? = some '/')) := by
              simp
            have h2 : ¬ (c = '.' ∧ ([] ++ '/' :: b).head? = some '.' ∧
                (([] ++ '/' :: b).tail = [] ∨ ([] ++ '/' :: b).tail.head? = some '/')) := by
              simp
            rw [if_neg h1, if_neg h2]
            have hd : ([c] : List Char).dropWhile (· ≠ '/') = [] := by
              simp [List.dropWhile_cons, hc]
            have hd2 : (c :: ([] ++ '/' :: b)).dropWhile (· ≠ '/') = '/' :: b := by
              simp [List.dropWhile_cons, hc]
            have ht2 : (c :: ([] ++ '/' :: b)).takeWhile (· ≠ '/')
                = ([c] : List Char).takeWhile (· ≠ '/') := by
              simp [List.takeWhile_cons, hc]
            rw [hd, hd2, ht2, cleanRun_slash, cleanRun_nil]
          | cons x a =>
            have hl2 : a.length ≤ n := by
              simp at hl
              omega
            have hb2 := atBoundary_append_slash a b
            unfold AtBoundary at hb2
            by_cases hdd : c = '.' ∧ (x :: a).head? = some '.' ∧
                ((x :: a).tail = [] ∨ (x :: a).tail.head? = some '/')
            · have hdd2 : c = '.' ∧ (x :: a ++ '/' :: b).head? = some '.' ∧
                  ((x :: a ++ '/' :: b).tail = [] ∨ (x :: a ++ '/' :: b).tail.head? = some '/') :=
                ⟨hdd.1, hdd.2.1, hb2.mpr hdd.2.2⟩
              rw [if_pos hdd, if_pos hdd2]
              exact ih a hl2 b _
            · have hdd2 : ¬ (c = '.' ∧ (x :: a ++ '/' :: b).head? = some '.' ∧
                  ((x :: a ++ '/' :: b).tail = [] ∨
                    (x :: a ++ '/' :: b).tail.head? = some '/')) :=
                fun h => hdd ⟨h.1, h.2.1, hb2.mp h.2.2⟩
              rw [if_neg hdd, if_neg hdd2]
              have e1 : (c :: (x :: a ++ '/' :: b)).dropWhile (· ≠ '/')
                  = (c :: x :: a).dropWhile (· ≠ '/') ++ '/' :: b :=
                dropWhile_notSlash_append (c :: x :: a) b
              have e2 : (c :: (x :: a ++ '/' :: b)).takeWhile (· ≠ '/')
                  = (c :: x :: a).takeWhile (· ≠ '/') :=
                takeWhile_notSlash_append (c :: x :: a) b
              rw [e1, e2]
              refine ih _ ?_ b _
              have h1 : (c :: x :: a).dropWhile (· ≠ '/') = (x :: a).dropWhile (· ≠ '/') := by
                simp [List.dropWhile_cons, hc]
              rw [h1]
              exact Nat.le_trans (dropWhile_length_le _ _) hl

/-- A separator in the path splits the run of the loop in two. -/
theorem cleanRun_split (rooted : Bool) (a b : List Char) (st : List Char × Nat) :
    cleanRun rooted (a ++ '/' :: b) st = cleanRun rooted b (cleanRun rooted a st) :=
  cleanRun_append_slash rooted a.length a (Nat.le_refl _) b st

/-! ## `filepath.Clean`: the states the loop can be in -/

/-- Adding a separator where needed does not shorten the buffer. -/
theorem withSep_length_ge (rooted : Bool) (out : List Char) :
    out.length ≤ (withSep rooted out).length := by
  unfold withSep
  split <;> simp

/-- In a canonical state `dotdot` does not exceed what is written. -/
theorem canon_le {rooted : Bool} {st : List Char × Nat} (h : Canon rooted st) :
    st.2 ≤ st.1.length := by
  induction h with
  | init => cases rooted <;> simp [cleanInit]
  | dots hr _ _ => simp [dotdotStep, hr]
  | elem _ _ ih =>
    simp only [elemStep, List.length_append, List.length_reverse]
    have := withSep_length_ge rooted (‹List Char × Nat›).1
    omega

/-- Adding a separator keeps the first character written. -/
theorem withSep_getLast? (rooted : Bool) (out : List Char) (h : out ≠ []) :
    (withSep rooted out).getLast? = out.getLast? := by
  unfold withSep
  split
  · cases out with
    | nil => exact absurd rfl h
    | cons x xs => simp
  · rfl

/-- The last element of an append is that of its non-empty second part. -/
theorem getLast?_append_of_ne_nil (l m : List Char) (h : m ≠ []) :
    (l ++ m).getLast? = m.getLast? := by
  rw [List.getLast?_append]
  cases hm : m.getLast? with
  | none => exact absurd (List.getLast?_eq_none_iff.mp hm) h
  | some x => rfl

/-- A non-empty buffer stays non-empty when a separator is added. -/
theorem withSep_ne_nil_of_ne_nil (rooted : Bool) (out : List Char) (h : out ≠ []) :
    withSep rooted out ≠ [] := by
  unfold withSep
  split
  · simp
  · exact h

/-- A canonical state of a rooted path has `dotdot = 1` and starts with the separator.
-/
theorem canon_rooted {st : List Char × Nat} (h : Canon true st) :
    st.2 = 1 ∧ st.1.getLast? = some '/' := by
  induction h with
  | init => simp [cleanInit]
  | dots hf _ _ => cases hf
  | elem _ _ ih =>
    obtain ⟨h1, h2⟩ := ih
    refine ⟨h1, ?_⟩
    have hne : (‹List Char × Nat›).1 ≠ [] := by
      intro hc
      rw [hc] at h2
      simp at h2
    simp only [elemStep]
    rw [getLast?_append_of_ne_nil _ _ (withSep_ne_nil_of_ne_nil _ _ hne),
      withSep_getLast? _ _ hne]
    exact h2

/-- A canonical state of an unrooted path does not start with the separator. -/
theorem canon_unrooted {st : List Char × Nat} (h : Canon false st) :
    st.1.getLast? ≠ some '/' := by
  induction h with
  | init => simp [cleanInit]
  | @dots out _ _ ih =>
    simp only [dotdotStep, Nat.lt_irrefl, if_false, if_true]
    cases out with
    | nil => simp
    | cons x xs =>
      have : (if (x :: xs).length > 0 then '/' :: x :: xs else x :: xs) = '/' :: x :: xs := by
        simp
      rw [this]
      simpa using ih
  | @elem st comp _ hc ih =>
    simp only [elemStep]
    by_cases hne : st.1 = []
    · have hw : withSep false st.1 = [] := by simp [withSep, hne]
      rw [hw, List.append_nil, List.getLast?_reverse]
      obtain ⟨h1, h2, _, _⟩ := hc
      cases comp with
      | nil => exact absurd rfl h1
      | cons c cs =>
        have := h2 c (List.mem_cons_self _ _)
        simpa using this
    · rw [getLast?_append_of_ne_nil _ _ (withSep_ne_nil_of_ne_nil _ _ hne),
        withSep_getLast? _ _ hne]
      exact ih

/-- A state that needs no separator before the next element is the initial one. -/
theorem canon_init_of_noSep {rooted : Bool} {st : List Char × Nat} (h : Canon rooted st)
    (hs : withSep rooted st.1 = st.1) : st = cleanInit rooted := by
  have hle := canon_le h
  obtain ⟨out, dd⟩ := st
  cases rooted with
  | true =>
    obtain ⟨h1, h2⟩ := canon_rooted h
    simp only at h1 h2 hs hle
    subst h1
    unfold withSep at hs
    by_cases hl : out.length = 1
    · obtain ⟨x, rfl⟩ := List.length_eq_one.mp hl
      have : x = '/' := by simpa using h2
      subst this
      rfl
    · rw [if_pos (Or.inl ⟨rfl, hl⟩)] at hs
      have := congrArg List.length hs
      simp at this
  | false =>
    simp only at hs hle
    unfold withSep at hs
    by_cases hl : out.length = 0
    · have : out = [] := List.length_eq_zero.mp hl
      subst this
      have : dd = 0 := by simpa using hle
      subst this
      rfl
    · rw [if_pos (Or.inr ⟨rfl, hl⟩)] at hs
      have := congrArg List.length hs
      simp at this

/-- The backtracking loop stops at `dotdot` and after giving up a separator. -/
theorem backtrackLoop_stop (d : Nat) (o : List Char) (last : Char)
    (h : o.length ≤ d ∨ last = '/') : backtrackLoop d o last = o := by
  cases o with
  | nil => rfl
  | cons x xs =>
    unfold backtrackLoop
    rw [if_neg]
    rintro ⟨h1, h2⟩
    rcases h with h | h
    · omega
    · exact h2 h

/-- Backtracking gives up the characters of the last element and the separator
before it, if the element has one. -/
theorem backtrackLoop_elem (d : Nat) (o ws : List Char) (hd : d ≤ o.length)
    (hws : ws = '/' :: o ∨ (ws = o ∧ o.length = d)) :
    ∀ (r : List Char) (last : Char), (∀ x ∈ r, x ≠ '/') → last ≠ '/' →
      backtrackLoop d (r ++ ws) last = o := by
  intro r
  induction r with
  | nil =>
    intro last _ hl
    rw [List.nil_append]
    rcases hws with rfl | ⟨rfl, he⟩
    · unfold backtrackLoop
      rw [if_pos ⟨by simp; omega, hl⟩]
      exact backtrackLoop_stop d o '/' (Or.inr rfl)
    · exact backtrackLoop_stop d ws last (Or.inl (Nat.le_of_eq he))
  | cons x r ih =>
    intro last hr hl
    have hx : x ≠ '/' := hr x (List.mem_cons_self _ _)
    have hlen : (x :: r ++ ws).length > d := by
      rcases hws with rfl | ⟨rfl, _⟩ <;> simp <;> omega
    rw [List.cons_append] at hlen ⊢
    unfold backtrackLoop
    rw [if_pos ⟨hlen, hl⟩]
    exact ih x (fun y hy => hr y (List.mem_cons_of_mem _ hy)) hx

/-- The default case adds a separator or nothing. -/
theorem withSep_cases (rooted : Bool) (out : List Char) :
    withSep rooted out = '/' :: out ∨ withSep rooted out = out := by
  unfold withSep
  split
  · exact Or.inl rfl
  · exact Or.inr rfl

/-- Backtracking undoes the writing of a real element. -/
theorem backtrack_elemStep {rooted : Bool} {st : List Char × Nat} {comp : List Char}
    (h : Canon rooted st) (hc : IsElem comp) :
    backtrack st.2 (elemStep rooted comp st).1 = st.1 := by
  have hle := canon_le h
  have hws : withSep rooted st.1 = '/' :: st.1 ∨
      (withSep rooted st.1 = st.1 ∧ st.1.length = st.2) := by
    rcases withSep_cases rooted st.1 with hw | hw
    · exact Or.inl hw
    · right
      refine ⟨hw, ?_⟩
      have := canon_init_of_noSep h hw
      rw [this]
      cases rooted <;> rfl
  obtain ⟨h1, h2, _, _⟩ := hc
  simp only [elemStep]
  cases hrev : comp.reverse with
  | nil => exact absurd (List.reverse_eq_nil_iff.mp hrev) h1
  | cons c r =>
    have hmem : ∀ x ∈ c :: r, x ≠ '/' := by
      intro x hx
      rw [← hrev] at hx
      exact h2 x (List.mem_reverse.mp hx)
    rw [List.cons_append]
    unfold backtrack
    exact backtrackLoop_elem st.2 st.1 _ hle hws r c
      (fun y hy => hmem y (List.mem_cons_of_mem _ hy)) (hmem c (List.mem_cons_self _ _))

/-- Backtracking keeps the state canonical. -/
theorem canon_backtrack {rooted : Bool} {st : List Char × Nat} (h : Canon rooted st)
    (hl : st.1.length > st.2) : Canon rooted (backtrack st.2 st.1, st.2) := by
  cases h with
  | init => cases rooted <;> simp [cleanInit] at hl
  | dots hr _ => simp [dotdotStep, hr] at hl
  | @elem st0 comp h0 hc =>
    have := backtrack_elemStep h0 hc
    simp only [elemStep] at this ⊢
    rw [this]
    exact h0

/-- The `..` case keeps the state canonical. -/
theorem canon_dotdotStep {rooted : Bool} {st : List Char × Nat} (h : Canon rooted st) :
    Canon rooted (dotdotStep rooted st) := by
  by_cases hl : st.1.length > st.2
  · have : dotdotStep rooted st = (backtrack st.2 st.1, st.2) := by simp [dotdotStep, hl]
    rw [this]
    exact canon_backtrack h hl
  · have hle := canon_le h
    have he : st = (st.1, st.1.length) := by
      have : st.2 = st.1.length := by omega
      rw [← this]
    cases hr : rooted with
    | false =>
      subst hr
      rw [he]
      rw [he] at h
      exact Canon.dots rfl h
    | true =>
      have : dotdotStep rooted st = st := by simp [dotdotStep, hl, hr]
      rw [← hr, this]
      exact h

/-- What the default case copies is a real element. -/
theorem isElem_takeWhile (c : Char) (rest : List Char) (hc : c ≠ '/')
    (hdot : ¬ (c = '.' ∧ (rest = [] ∨ rest.head? = some '/')))
    (hdd : ¬ (c = '.' ∧ rest.head? = some '.' ∧ (rest.tail = [] ∨ rest.tail.head? = some '/'))) :
    IsElem ((c :: rest).takeWhile (· ≠ '/')) := by
  have htw : (c :: rest).takeWhile (· ≠ '/') = c :: rest.takeWhile (· ≠ '/') := by
    simp [List.takeWhile_cons, hc]
  rw [htw]
  refine ⟨by simp, ?_, ?_, ?_⟩
  · intro x hx
    rcases List.mem_cons.mp hx with rfl | hx
    · exact hc
    · have := List.mem_takeWhile_imp hx
      simpa using this
  · intro h
    injection h with h1 h2
    apply hdot
    refine ⟨h1, ?_⟩
    cases rest with
    | nil => exact Or.inl rfl
    | cons y ys =>
      right
      by_cases hy : y = '/'
      · simp [hy]
      · simp [List.takeWhile_cons, hy] at h2
  · intro h
    injection h with h1 h2
    apply hdd
    cases rest with
    | nil => simp at h2
    | cons y ys =>
      by_cases hy : y = '/'
      · simp [List.takeWhile_cons, hy] at h2
      · simp [List.takeWhile_cons, hy] at h2
        obtain ⟨h3, h4⟩ := h2
        refine ⟨h1, by simp [h3], ?_⟩
        cases ys with
        | nil => exact Or.inl rfl
        | cons z zs =>
          right
          by_cases hz : z = '/'
          · simp [hz]
          · simp [List.takeWhile_cons, hz] at h4

/-- The loop of `Clean` keeps its state canonical. -/
theorem canon_cleanRun (rooted : Bool) :
    ∀ (n : Nat) (path : List Char), path.length ≤ n → ∀ st, Canon rooted st →
      Canon rooted (cleanRun rooted path st) := by
  intro n
  induction n with
  | zero =>
    intro path hp st h
    have : path = [] := List.length_eq_zero.mp (Nat.le_zero.mp hp)
    subst this
    exact h
  | succ n ih =>
    intro path hp st h
    cases path with
    | nil => exact h
    | cons c rest =>
      have hr : rest.length ≤ n := by simpa using hp
      have ht : rest.tail.length ≤ n := by
        have := List.length_tail rest
        omega
      rw [cleanRun_cons]
      by_cases hc : c = '/'
      · rw [if_pos hc]
        exact ih rest hr st h
      · rw [if_neg hc]
        by_cases hdot : c = '.' ∧ (rest = [] ∨ rest.head? = some '/')
        · rw [if_pos hdot]
          exact ih rest hr st h
        · rw [if_neg hdot]
          by_cases hdd : c = '.' ∧ rest.head? = some '.' ∧
              (rest.tail = [] ∨ rest.tail.head? = some '/')
          · rw [if_pos hdd]
            exact ih rest.tail ht _ (canon_dotdotStep h)
          · rw [if_neg hdd]
            refine ih _ ?_ _ (Canon.elem h (isElem_takeWhile c rest hc hdot hdd))
            have h1 : (c :: rest).dropWhile (· ≠ '/') = rest.dropWhile (· ≠ '/') := by
              simp [List.dropWhile_cons, hc]
            rw [h1]
            exact Nat.le_trans (dropWhile_length_le _ rest) hr

/-- The result of `Clean` on a non-empty path, in terms of `cleanRun`. -/
theorem cleanChars_eq (path : List Char) (hne : path ≠ []) (rooted : Bool)
    (hr : rooted = decide (path.head? = some '/')) :
    cleanChars path =
      if (cleanRun rooted (pathBody rooted path) (cleanInit rooted)).1.length = 0 then ['.']
      else (cleanRun rooted (pathBody rooted path) (cleanInit rooted)).1.reverse := by
  subst hr
  unfold cleanChars
  rw [if_neg hne]
  rfl

/-- The body of a non-empty path followed by more is its body followed by more. -/
theorem pathBody_append (rooted : Bool) (a b : List Char) (ha : a ≠ []) :
    pathBody rooted (a ++ b) = pathBody rooted a ++ b := by
  unfold pathBody
  cases rooted with
  | false => rfl
  | true =>
    cases a with
    | nil => exact absurd rfl ha
    | cons x xs => rfl

/-- Running the loop of `Clean` on what a canonical state has written gives
that state back. -/
theorem canon_fixed {rooted : Bool} {st : List Char × Nat} (h : Canon rooted st) :
    cleanRun rooted (pathBody rooted st.1.reverse) (cleanInit rooted) = st := by
  induction h with
  | init => cases rooted <;> rfl
  | @dots out hr h0 ih =>
    subst hr
    have hd : dotdotStep false (out, out.length)
        = ('.' :: '.' :: (if out.length > 0 then '/' :: out else out),
            ('.' :: '.' :: (if out.length > 0 then '/' :: out else out)).length) := by
      simp [dotdotStep]
    simp only [pathBody] at ih ⊢
    cases out with
    | nil =>
      rw [hd]
      have : cleanRun false ['.', '.'] (cleanInit false) = dotdotStep false (cleanInit false) := by
        rw [cleanRun_dotdot false [] _ (Or.inl rfl), cleanRun_nil]
      simpa [cleanInit, dotdotStep] using this
    | cons x xs =>
      have hrev : (dotdotStep false (x :: xs, (x :: xs).length)).1.reverse
          = (x :: xs).reverse ++ '/' :: ['.', '.'] := by
        rw [hd]
        simp
      rw [hrev]
      simp only [Bool.false_eq_true, if_false] at ih ⊢
      rw [cleanRun_split, ih, cleanRun_dotdot false [] _ (Or.inl rfl), cleanRun_nil]
  | @elem st comp h0 hc ih =>
    have hrev : (elemStep rooted comp st).1.reverse = (withSep rooted st.1).reverse ++ comp := by
      simp [elemStep]
    rw [hrev]
    rcases withSep_cases rooted st.1 with hw | hw
    · have hne : st.1.reverse ≠ [] := by
        intro hc2
        have h1 : st.1 = [] := List.reverse_eq_nil_iff.mp hc2
        have h2 : withSep rooted st.1 = st.1 := by
          cases rooted with
          | true =>
            have := (canon_rooted h0).2
            rw [h1] at this
            simp at this
          | false => simp [withSep, h1]
        rw [h2, h1] at hw
        simp at hw
      rw [hw, List.reverse_cons, List.append_assoc, List.singleton_append,
        pathBody_append rooted _ _ hne, cleanRun_split, ih]
      have := cleanRun_elem rooted comp [] st hc (Or.inl rfl)
      rw [List.append_nil, cleanRun_nil] at this
      exact this
    · have hinit := canon_init_of_noSep h0 hw
      rw [hw]
      have hb : pathBody rooted (st.1.reverse ++ comp) = comp := by
        rw [hinit]
        cases rooted <;> rfl
      rw [hb]
      have := cleanRun_elem rooted comp [] (cleanInit rooted) hc (Or.inl rfl)
      rw [List.append_nil, cleanRun_nil] at this
      rw [this, hinit]

/-- Whether a canonical state was reached on a rooted path can be read off what it
wrote. -/
theorem canon_head {rooted : Bool} {st : List Char × Nat} (h : Canon rooted st) :
    rooted = decide (st.1.reverse.head? = some '/') := by
  rw [List.head?_reverse]
  cases rooted with
  | true => simp [(canon_rooted h).2]
  | false => simp [canon_unrooted h]

/-- A canonical state that needs a separator has written something. -/
theorem canon_ne_nil_of_sep {rooted : Bool} {st : List Char × Nat} (h : Canon rooted st)
    (hw : withSep rooted st.1 = '/' :: st.1) : st.1 ≠ [] := by
  intro h1
  cases rooted with
  | true =>
    have := (canon_rooted h).2
    rw [h1] at this
    simp at this
  | false =>
    rw [h1] at hw
    simp [withSep] at hw

/-- Joining a real element `e` to a non-empty folder path: the cleaned result is
the cleaned folder, a separator where one is needed, and `e`. -/
theorem clean_join (folder e : List Char) (hf : folder ≠ []) (he : IsElem e) :
    ∃ ws : List Char, AtBoundary ws ∧
      cleanChars (folder ++ '/' :: e) = ws.reverse ++ e ∧
      cleanChars ws.reverse = cleanChars folder := by
  obtain ⟨rooted, hr⟩ : ∃ rooted : Bool, rooted = decide (folder.head? = some '/') := ⟨_, rfl⟩
  have hr2 : rooted = decide ((folder ++ '/' :: e).head? = some '/') := by
    rw [hr]
    cases folder with
    | nil => exact absurd rfl hf
    | cons x xs => rfl
  have hcan : Canon rooted (cleanRun rooted (pathBody rooted folder) (cleanInit rooted)) :=
    canon_cleanRun rooted _ _ (Nat.le_refl _) _ Canon.init
  generalize hst : cleanRun rooted (pathBody rooted folder) (cleanInit rooted) = st at hcan
  have hfold := cleanChars_eq folder hf rooted hr
  rw [hst] at hfold
  have hjoin := cleanChars_eq (folder ++ '/' :: e) (by simp) rooted hr2
  rw [pathBody_append rooted _ _ hf, cleanRun_split, hst] at hjoin
  have hel := cleanRun_elem rooted e [] st he (Or.inl rfl)
  rw [List.append_nil, cleanRun_nil] at hel
  rw [hel] at hjoin
  have hne : (elemStep rooted e st).1.length ≠ 0 := by
    simp only [elemStep, List.length_append, List.length_reverse]
    have := List.length_pos.mpr he.1
    omega
  rw [if_neg hne] at hjoin
  have hrev : (elemStep rooted e st).1.reverse = (withSep rooted st.1).reverse ++ e := by
    simp [elemStep]
  rw [hrev] at hjoin
  refine ⟨withSep rooted st.1, ?_, hjoin, ?_⟩
  · rcases withSep_cases rooted st.1 with hw | hw
    · rw [hw]
      exact Or.inr rfl
    · rw [hw, canon_init_of_noSep hcan hw]
      cases rooted
      · exact Or.inl rfl
      · exact Or.inr rfl
  · rw [hfold]
    rcases withSep_cases rooted st.1 with hw | hw
    · have hne1 := canon_ne_nil_of_sep hcan hw
      have hne2 : st.1.reverse ≠ [] := fun hc => hne1 (List.reverse_eq_nil_iff.mp hc)
      have hhead := canon_head hcan
      have hhead2 : rooted = decide ((st.1.reverse ++ ['/']).head? = some '/') := by
        rw [hhead]
        cases hrv : st.1.reverse with
        | nil => exact absurd hrv hne2
        | cons x xs => rfl
      rw [hw, List.reverse_cons, cleanChars_eq _ (by simp) rooted hhead2,
        pathBody_append rooted _ _ hne2, cleanRun_split, canon_fixed hcan, cleanRun_nil]
    · have hinit := canon_init_of_noSep hcan hw
      rw [hw, hinit]
      cases rooted <;> decide

/-! ## The dump file name -/

/-- The characters of the element joined to the folder. -/
theorem dumpElement_data (cfg : Config) (t : Time) :
    (dumpElement cfg t).data
      = cfg.backupFilePrefix.data ++ (formatStamp t).data ++ ['.', 's', 'q', 'l'] := by
  simp [dumpElement, String.data_append]

/-- With no separator in the file prefix, the element joined to the folder is a real
path element. -/
theorem dumpElement_isElem (cfg : Config) (t : Time)
    (hp : ∀ c ∈ cfg.backupFilePrefix.data, c ≠ '/') : IsElem (dumpElement cfg t).data := by
  rw [dumpElement_data]
  refine ⟨by simp, ?_, ?_, ?_⟩
  · intro x hx
    rcases List.mem_append.mp hx with hx | hx
    · rcases List.mem_append.mp hx with hx | hx
      · exact hp x hx
      · exact formatStamp_no_slash t x hx
    · simp only [List.mem_cons, List.mem_singleton, List.not_mem_nil, or_false] at hx
      rcases hx with rfl | rfl | rfl | rfl <;> decide
  · intro h
    have := congrArg List.length h
    simp at this
    omega
  · intro h
    have := congrArg List.length h
    simp at this
    omega

/-- The characters of `backupFileName`: the folder, a separator and the element,
cleaned. -/
theorem backupFileNameOf_data (cfg : Config) (t : Time) :
    (backupFileNameOf cfg t).data
      = cleanChars ((backupFolderOf cfg).data ++ '/' :: (dumpElement cfg t).data) := by
  have hne : backupFolderOf cfg ≠ "" := by
    intro h
    have := congrArg String.length h
    simp [backupFolderOf] at this
    exact absurd this.2 (by decide)
  unfold backupFileNameOf Join
  rw [if_pos hne]
  simp [Clean, String.intercalate, String.intercalate.go, String.data_append]

/-- The folder name is never empty. -/
theorem backupFolderOf_data_ne_nil (cfg : Config) : (backupFolderOf cfg).data ≠ [] := by
  simp [backupFolderOf, String.data_append]

/-- The result of `Base` is never the empty string. -/
theorem Base_ne_empty (path : String) : Base path ≠ "" := by
  unfold Base
  split
  · decide
  · dsimp only
    split
    · decide
    · rename_i hl
      intro hc
      exact hl (congrArg String.data hc)

/-! ## Effects of the functions on the process state -/

/-- When `os.Stat` answers anything but an `IsNotExist` error, `createBackupFolder`
returns `nil` and does nothing: a folder that cannot be inspected is neither created
nor reported. -/
theorem createBackupFolder_not_missing (o : Oracle) (folderName : String) (p : Proc)
    (h : o.folderMissing = false) : createBackupFolder o folderName p = (none, p) := by
  simp [createBackupFolder, h]

/-- In any state `uploadToS3` either ends the process, recording that, or returns
`uploadErr` and records `uploadEvents`; it changes nothing else. -/
theorem uploadToS3_eq (o : Oracle) (a s r b e f : String) (p : Proc) :
    uploadToS3 o a s r b e f p
      = if uploadCrashes o then .crash (uploadCrashed f p)
        else .ret (uploadErr o) { p with trace := p.trace ++ uploadEvents o b f } := by
  unfold uploadEvents uploadErr uploadToS3 uploadReturns record Proc.blank uploadReachesPut
    uploadCrashes uploadCrashed
  cases o.uploadOpen <;> cases o.uploadStat <;> cases o.uploadSession <;>
    cases o.uploadBufferFails <;> cases o.uploadRead <;> cases o.putObject <;> simp

/-- The events of an `uploadToS3` that returns: the `PutObject` request if it is
reached, then the call. -/
theorem uploadEvents_if (o : Oracle) (b f : String) :
    uploadEvents o b f
      = (if uploadReachesPut o then [Event.putObject b (Base f) o.putObject] else []) ++
          [Event.uploadToS3 f (uploadErr o)] := rfl

/-- In any state `deleteFromS3` returns `deleteErr`, records `deleteEvents` and logs
`deleteLogs`; it changes nothing else. -/
theorem deleteFromS3_eq (o : Oracle) (a s r b e k : String) (p : Proc) :
    deleteFromS3 o a s r b e k p
      = (deleteErr o,
          { p with trace := p.trace ++ deleteEvents o b k, log := p.log ++ deleteLogs o k }) := by
  unfold deleteErr deleteEvents deleteLogs deleteFromS3 returning record logf Proc.blank
  cases o.deleteSession <;> cases o.deleteObject <;> simp

/-- The events of `deleteFromS3`: the `DeleteObject` request if it is reached, then the
call. -/
theorem deleteEvents_if (o : Oracle) (b k : String) :
    deleteEvents o b k
      = (if o.deleteSession.isNone then [Event.deleteObject b k o.deleteObject] else []) ++
          [Event.deleteFromS3 k (deleteErr o)] := by
  unfold deleteErr deleteEvents deleteFromS3 returning record logf Proc.blank
  cases o.deleteSession <;> cases o.deleteObject <;> simp

/-- A read of the pointer file that meets no error returns its content, or `""` when
there is no file. -/
theorem readPreviousBackupLog_ok (o : Oracle) (p : Proc) (h : o.pointerRead = none) :
    readPreviousBackupLog o p = .ret (previousOf p.world) (readDone p) := by
  unfold readPreviousBackupLog previousOf readDone readOf record
  rw [h]
  cases p.world.pointer <;> rfl

/-- A read error other than not-exist ends the process. -/
theorem readPreviousBackupLog_fail (o : Oracle) (p : Proc) (e : String)
    (h : o.pointerRead = some e) : readPreviousBackupLog o p = .fatal (readFailed e p) := by
  unfold readPreviousBackupLog readFailed record logf
  rw [h]

/-- An append without fault adds one line to the history. -/
theorem appendToBackupLog_ok (t : Time) (m : String) (p : Proc) :
    appendToBackupLog none t m p = .ret () (appendDone t m p) := rfl

/-- An append with a fault ends the process. -/
theorem appendToBackupLog_fail (fl : AppendFault) (t : Time) (m : String) (p : Proc) :
    appendToBackupLog (some fl) t m p = .fatal (appendFailed fl t m p) := by
  cases fl <;> rfl

/-- The upload step of an upload that returns is the upload followed by one history
append. -/
theorem uploadStep_eq (cfg : Config) (o : Oracle) (f : String) (p : Proc)
    (hc : uploadCrashes o = false) :
    uploadStep cfg o f p
      = appendToBackupLog o.uploadLogFault o.uploadLogTime (uploadMessage f (uploadErr o))
          (uploadTried cfg o f p) := by
  unfold uploadStep uploadTried
  rw [uploadToS3_eq, hc]
  cases uploadErr o <;> simp [uploadMessage, uploadLogLines, logf]

/-- The upload step of an upload the runtime ends the process in. -/
theorem uploadStep_crash (cfg : Config) (o : Oracle) (f : String) (p : Proc)
    (hc : uploadCrashes o = true) :
    uploadStep cfg o f p = .crash (uploadCrashed f p) := by
  unfold uploadStep
  rw [uploadToS3_eq, hc]
  simp

/-- For a non-empty previous name the delete step is the deletion followed by one
history append. -/
theorem deletePreviousStep_eq (cfg : Config) (o : Oracle) (k : String) (p : Proc) (hk : k ≠ "") :
    deletePreviousStep cfg o k p
      = appendToBackupLog o.deleteLogFault o.deleteLogTime (deleteMessage k (deleteErr o))
          (deleteTried cfg o k p) := by
  unfold deletePreviousStep deleteTried
  rw [deleteFromS3_eq, if_pos hk]
  cases deleteErr o <;> simp [deleteMessage, deleteLogLines, logf]

/-- For the empty previous name the delete step does nothing. -/
theorem deletePreviousStep_empty (cfg : Config) (o : Oracle) (p : Proc) :
    deletePreviousStep cfg o "" p = .ret () p := by
  simp [deletePreviousStep]

/-- A failed pointer write ends the process. -/
theorem finishStep_saveFail (o : Oracle) (f : String) (p : Proc) (wf : WriteFault)
    (h : o.pointerWrite = some wf) :
    finishStep o f p = ⟨.fatal, saveFailed wf (Base f) p⟩ := by
  unfold finishStep saveCurrentBackupLog saveFailed record logf
  rw [h]

/-- A failed removal of the local file ends the process after the pointer was written.
-/
theorem finishStep_removeFail (o : Oracle) (f : String) (p : Proc) (e : String)
    (h : o.pointerWrite = none) (hr : o.remove = some e) :
    finishStep o f p = ⟨.fatal, removeFailed e f (saveDone (Base f) p)⟩ := by
  unfold finishStep saveCurrentBackupLog deleteLocalBackup removeFailed saveDone record logf
  rw [h, hr]

/-- With the pointer written and the local file removed the run succeeds. -/
theorem finishStep_ok (o : Oracle) (f : String) (p : Proc)
    (h : o.pointerWrite = none) (hr : o.remove = none) :
    finishStep o f p = ⟨.success, removeDone f (saveDone (Base f) p)⟩ := by
  unfold finishStep saveCurrentBackupLog deleteLocalBackup removeDone saveDone record logf successLine
  rw [h, hr]
  simp

/-! ## The paths of a run -/

/-- The run when the settings cannot be loaded. -/
theorem main_envFail (cfg : Config) (o : Oracle) (w : World) (e : String)
    (h : o.envLoad = some e) :
    main cfg o w = ⟨.fatal, ⟨w, ["Error loading .env file"], [.loadEnv (some e)]⟩⟩ := by
  unfold main logf
  simp [h]

/-- The run when the backup folder cannot be created. -/
theorem main_mkdirFail (cfg : Config) (o : Oracle) (w : World) (e : String)
    (h : o.envLoad = none) (hm : o.folderMissing = true) (he : o.mkdir = some e) :
    main cfg o w = ⟨.fatal, ⟨w, ["Error creating backup folder: " ++ ("failed to create folder: " ++ e)],
      [.loadEnv none, .mkdir (backupFolderOf cfg) (some e)]⟩⟩ := by
  unfold main createBackupFolder logf record
  simp [h, hm, he]

/-- The run when `mysqldump` fails. -/
theorem main_dumpFail (cfg : Config) (o : Oracle) (w : World) (e : String)
    (h : o.envLoad = none) (hm : o.folderMissing = true → o.mkdir = none) (hd : o.dump = some e) :
    main cfg o w = ⟨.fatal,
      ⟨{ w with files :=
          if o.dumpLeavesFile then backupFileNameOf cfg o.now :: w.files else w.files },
        folderLogs cfg o ++ ["Error backing up MySQL: " ++ e],
        [.loadEnv none] ++ folderEvents cfg o ++
          [.mysqldump (dumpArgs cfg (backupFileNameOf cfg o.now)) (some e)]⟩⟩ := by
  unfold main createBackupFolder backupMySQL logf record folderLogs folderEvents dumpArgs
  cases hf : o.folderMissing <;> cases hl : o.dumpLeavesFile <;> simp_all

/-- After a successful dump `main` continues as `afterDump` from the state `dumped`. -/
theorem main_dumpOk (cfg : Config) (o : Oracle) (w : World)
    (h : o.envLoad = none) (hm : o.folderMissing = true → o.mkdir = none) (hd : o.dump = none) :
    main cfg o w = afterDump cfg o (backupFileNameOf cfg o.now) (dumped cfg o w) := by
  unfold main createBackupFolder backupMySQL logf record dumped folderLogs folderEvents dumpArgs
  cases hf : o.folderMissing <;> simp_all

/-- The rest of the run when the pointer read fails. -/
theorem afterDump_readFail (cfg : Config) (o : Oracle) (f : String) (p : Proc) (e : String)
    (hr : o.pointerRead = some e) : afterDump cfg o f p = ⟨.fatal, readFailed e p⟩ := by
  unfold afterDump
  rw [readPreviousBackupLog_fail o p e hr]

/-- The rest of the run when the history append after the upload fails. -/
theorem afterDump_uploadLogFail (cfg : Config) (o : Oracle) (f : String) (p : Proc)
    (fl : AppendFault) (hr : o.pointerRead = none) (hc : uploadCrashes o = false)
    (hu : o.uploadLogFault = some fl) :
    afterDump cfg o f p = ⟨.fatal, appendFailed fl o.uploadLogTime
      (uploadMessage f (uploadErr o)) (uploadTried cfg o f (readDone p))⟩ := by
  unfold afterDump
  rw [readPreviousBackupLog_ok o p hr]
  dsimp only
  rw [uploadStep_eq cfg o f _ hc, hu, appendToBackupLog_fail]

/-- The rest of the run when the Go runtime ends the process in `uploadToS3`. -/
theorem afterDump_crash (cfg : Config) (o : Oracle) (f : String) (p : Proc)
    (hr : o.pointerRead = none) (hc : uploadCrashes o = true) :
    afterDump cfg o f p = ⟨.crashed, uploadCrashed f (readDone p)⟩ := by
  unfold afterDump
  rw [readPreviousBackupLog_ok o p hr]
  dsimp only
  rw [uploadStep_crash cfg o f _ hc]

/-- The rest of the run when the history append after the deletion fails. -/
theorem afterDump_deleteLogFail (cfg : Config) (o : Oracle) (f : String) (p : Proc)
    (fl : AppendFault) (hr : o.pointerRead = none) (hc : uploadCrashes o = false)
    (hu : o.uploadLogFault = none)
    (hp : previousOf p.world ≠ "") (hl : o.deleteLogFault = some fl) :
    afterDump cfg o f p = ⟨.fatal, appendFailed fl o.deleteLogTime
      (deleteMessage (previousOf p.world) (deleteErr o))
      (deleteTried cfg o (previousOf p.world) (uploaded cfg o f p))⟩ := by
  unfold afterDump
  rw [readPreviousBackupLog_ok o p hr]
  dsimp only
  rw [uploadStep_eq cfg o f _ hc, hu, appendToBackupLog_ok]
  dsimp only
  rw [deletePreviousStep_eq cfg o _ _ hp, hl, appendToBackupLog_fail]
  rfl

/-- The rest of the run when read and history appends succeed: it reaches `finishStep`.
-/
theorem afterDump_finish (cfg : Config) (o : Oracle) (f : String) (p : Proc)
    (hr : o.pointerRead = none) (hc : uploadCrashes o = false) (hu : o.uploadLogFault = none)
    (hd : previousOf p.world ≠ "" → o.deleteLogFault = none) :
    afterDump cfg o f p = finishStep o f (deleted cfg o f p) := by
  unfold afterDump
  rw [readPreviousBackupLog_ok o p hr]
  dsimp only
  rw [uploadStep_eq cfg o f _ hc, hu, appendToBackupLog_ok]
  dsimp only
  by_cases hp : previousOf p.world = ""
  · rw [hp, deletePreviousStep_empty]
    simp [deleted, deletedWith, hp, uploaded]
  · rw [deletePreviousStep_eq cfg o _ _ hp, hd hp, appendToBackupLog_ok]
    simp [deleted, deletedWith, hp, uploaded]

/-- The seven paths of the run after a successful dump. -/
theorem afterDump_cases (cfg : Config) (o : Oracle) (f : String) (p : Proc) :
    (∃ e, o.pointerRead = some e ∧ afterDump cfg o f p = ⟨.fatal, readFailed e p⟩) ∨
    (o.pointerRead = none ∧ ∃ fl, o.uploadLogFault = some fl ∧
      afterDump cfg o f p = ⟨.fatal, appendFailed fl o.uploadLogTime
        (uploadMessage f (uploadErr o)) (uploadTried cfg o f (readDone p))⟩) ∨
    (o.pointerRead = none ∧ o.uploadLogFault = none ∧ previousOf p.world ≠ "" ∧
      ∃ fl, o.deleteLogFault = some fl ∧
      afterDump cfg o f p = ⟨.fatal, appendFailed fl o.deleteLogTime
        (deleteMessage (previousOf p.world) (deleteErr o))
        (deleteTried cfg o (previousOf p.world) (uploaded cfg o f p))⟩) ∨
    (o.pointerRead = none ∧ o.uploadLogFault = none ∧
      (previousOf p.world ≠ "" → o.deleteLogFault = none) ∧
      ((∃ wf, o.pointerWrite = some wf ∧
          afterDump cfg o f p = ⟨.fatal, saveFailed wf (Base f) (deleted cfg o f p)⟩) ∨
        (o.pointerWrite = none ∧ ∃ e, o.remove = some e ∧
          afterDump cfg o f p
            = ⟨.fatal, removeFailed e f (saveDone (Base f) (deleted cfg o f p))⟩) ∨
        (o.pointerWrite = none ∧ o.remove = none ∧
          afterDump cfg o f p
            = ⟨.success, removeDone f (saveDone (Base f) (deleted cfg o f p))⟩))) ∨
    (o.pointerRead = none ∧ uploadCrashes o = true ∧
      afterDump cfg o f p = ⟨.crashed, uploadCrashed f (readDone p)⟩) := by
  cases hr : o.pointerRead with
  | some e => exact Or.inl ⟨e, rfl, afterDump_readFail cfg o f p e hr⟩
  | none =>
    cases hc : uploadCrashes o with
    | true => exact Or.inr (Or.inr (Or.inr (Or.inr ⟨rfl, rfl, afterDump_crash cfg o f p hr hc⟩)))
    | false =>
    cases hu : o.uploadLogFault with
    | some fl =>
      exact Or.inr (Or.inl ⟨rfl, fl, rfl, afterDump_uploadLogFail cfg o f p fl hr hc hu⟩)
    | none =>
      by_cases hd : previousOf p.world ≠ "" → o.deleteLogFault = none
      · refine Or.inr (Or.inr (Or.inr (Or.inl ⟨rfl, rfl, hd, ?_⟩)))
        rw [afterDump_finish cfg o f p hr hc hu hd]
        cases hw : o.pointerWrite with
        | some wf => exact Or.inl ⟨wf, rfl, finishStep_saveFail o f _ wf hw⟩
        | none =>
          cases hx : o.remove with
          | some e => exact Or.inr (Or.inl ⟨rfl, e, rfl, finishStep_removeFail o f _ e hw hx⟩)
          | none => exact Or.inr (Or.inr ⟨rfl, rfl, finishStep_ok o f _ hw hx⟩)
      · have hp : previousOf p.world ≠ "" := fun h => hd (fun h2 => absurd h h2)
        cases hl : o.deleteLogFault with
        | none => exact absurd (fun _ => hl) hd
        | some fl =>
          exact Or.inr (Or.inr (Or.inl
            ⟨rfl, rfl, hp, fl, rfl, afterDump_deleteLogFail cfg o f p fl hr hc hu hp hl⟩))

/-- The three early exits of `main`, or the continuation after a successful dump. -/
theorem main_cases (cfg : Config) (o : Oracle) (w : World) :
    (∃ e, o.envLoad = some e ∧
      main cfg o w = ⟨.fatal, ⟨w, ["Error loading .env file"], [.loadEnv (some e)]⟩⟩) ∨
    (∃ e, o.envLoad = none ∧ o.folderMissing = true ∧ o.mkdir = some e ∧
      main cfg o w
        = ⟨.fatal, ⟨w, ["Error creating backup folder: " ++ ("failed to create folder: " ++ e)],
            [.loadEnv none, .mkdir (backupFolderOf cfg) (some e)]⟩⟩) ∨
    (∃ e, o.envLoad = none ∧ (o.folderMissing = true → o.mkdir = none) ∧ o.dump = some e ∧
      main cfg o w = ⟨.fatal,
        ⟨{ w with files :=
            if o.dumpLeavesFile then backupFileNameOf cfg o.now :: w.files else w.files },
          folderLogs cfg o ++ ["Error backing up MySQL: " ++ e],
          [.loadEnv none] ++ folderEvents cfg o ++
            [.mysqldump (dumpArgs cfg (backupFileNameOf cfg o.now)) (some e)]⟩⟩) ∨
    (DumpOk o ∧
      main cfg o w = afterDump cfg o (backupFileNameOf cfg o.now) (dumped cfg o w)) := by
  cases h : o.envLoad with
  | some e => exact Or.inl ⟨e, rfl, main_envFail cfg o w e h⟩
  | none =>
    by_cases hm : o.folderMissing = true → o.mkdir = none
    · cases hd : o.dump with
      | some e => exact Or.inr (Or.inr (Or.inl ⟨e, rfl, hm, rfl, main_dumpFail cfg o w e h hm hd⟩))
      | none => exact Or.inr (Or.inr (Or.inr ⟨⟨h, hm, hd⟩, main_dumpOk cfg o w h hm hd⟩))
    · have hf : o.folderMissing = true := by
        by_contra hc
        exact hm (fun h2 => absurd h2 hc)
      cases he : o.mkdir with
      | none => exact absurd (fun _ => he) hm
      | some e => exact Or.inr (Or.inl ⟨e, rfl, hf, rfl, main_mkdirFail cfg o w e h hf he⟩)

/-- The dump does not touch the pointer file. -/
theorem previousOf_dumped (cfg : Config) (o : Oracle) (w : World) :
    previousOf (dumped cfg o w).world = previousOf w := rfl

/-- Every run of `main` takes one of ten paths; the final state of each is given
in closed form. -/
theorem run_cases (cfg : Config) (o : Oracle) (w : World) :
    (∃ e, o.envLoad = some e ∧
      main cfg o w = ⟨.fatal, ⟨w, ["Error loading .env file"], [.loadEnv (some e)]⟩⟩) ∨
    (∃ e, o.envLoad = none ∧ o.folderMissing = true ∧ o.mkdir = some e ∧
      main cfg o w
        = ⟨.fatal, ⟨w, ["Error creating backup folder: " ++ ("failed to create folder: " ++ e)],
            [.loadEnv none, .mkdir (backupFolderOf cfg) (some e)]⟩⟩) ∨
    (∃ e, o.envLoad = none ∧ (o.folderMissing = true → o.mkdir = none) ∧ o.dump = some e ∧
      main cfg o w = ⟨.fatal,
        ⟨{ w with files :=
            if o.dumpLeavesFile then backupFileNameOf cfg o.now :: w.files else w.files },
          folderLogs cfg o ++ ["Error backing up MySQL: " ++ e],
          [.loadEnv none] ++ folderEvents cfg o ++
            [.mysqldump (dumpArgs cfg (backupFileNameOf cfg o.now)) (some e)]⟩⟩) ∨
    (DumpOk o ∧ ∃ e, o.pointerRead = some e ∧
      main cfg o w = ⟨.fatal, readFailed e (dumped cfg o w)⟩) ∨
    (DumpOk o ∧ o.pointerRead = none ∧ ∃ fl, o.uploadLogFault = some fl ∧
      main cfg o w = ⟨.fatal, appendFailed fl o.uploadLogTime
        (uploadMessage (backupFileNameOf cfg o.now) (uploadErr o))
        (uploadTried cfg o (backupFileNameOf cfg o.now) (readDone (dumped cfg o w)))⟩) ∨
    (DumpOk o ∧ o.pointerRead = none ∧ o.uploadLogFault = none ∧ previousOf w ≠ "" ∧
      ∃ fl, o.deleteLogFault = some fl ∧
      main cfg o w = ⟨.fatal, appendFailed fl o.deleteLogTime
        (deleteMessage (previousOf w) (deleteErr o))
        (deleteTried cfg o (previousOf w)
          (uploaded cfg o (backupFileNameOf cfg o.now) (dumped cfg o w)))⟩) ∨
    (DumpOk o ∧ o.pointerRead = none ∧ o.uploadLogFault = none ∧
      (previousOf w ≠ "" → o.deleteLogFault = none) ∧ ∃ wf, o.pointerWrite = some wf ∧
      main cfg o w = ⟨.fatal, saveFailed wf (Base (backupFileNameOf cfg o.now))
        (deletedWith cfg o (previousOf w)
          (uploaded cfg o (backupFileNameOf cfg o.now) (dumped cfg o w)))⟩) ∨
    (DumpOk o ∧ o.pointerRead = none ∧ o.uploadLogFault = none ∧
      (previousOf w ≠ "" → o.deleteLogFault = none) ∧ o.pointerWrite = none ∧
      ∃ e, o.remove = some e ∧
      main cfg o w = ⟨.fatal, removeFailed e (backupFileNameOf cfg o.now)
        (saveDone (Base (backupFileNameOf cfg o.now))
          (deletedWith cfg o (previousOf w)
          (uploaded cfg o (backupFileNameOf cfg o.now) (dumped cfg o w))))⟩) ∨
    (DumpOk o ∧ o.pointerRead = none ∧ o.uploadLogFault = none ∧
      (previousOf w ≠ "" → o.deleteLogFault = none) ∧ o.pointerWrite = none ∧
      o.remove = none ∧
      main cfg o w = ⟨.success, removeDone (backupFileNameOf cfg o.now)
        (saveDone (Base (backupFileNameOf cfg o.now))
          (deletedWith cfg o (previousOf w)
          (uploaded cfg o (backupFileNameOf cfg o.now) (dumped cfg o w))))⟩) ∨
    (DumpOk o ∧ o.pointerRead = none ∧ uploadCrashes o = true ∧
      main cfg o w
        = ⟨.crashed, uploadCrashed (backupFileNameOf cfg o.now) (readDone (dumped cfg o w))⟩) := by
  rcases main_cases cfg o w with h | h | h | ⟨hok, hm⟩
  · exact Or.inl h
  · exact Or.inr (Or.inl h)
  · exact Or.inr (Or.inr (Or.inl h))
  · rw [hm]
    rcases afterDump_cases cfg o (backupFileNameOf cfg o.now) (dumped cfg o w) with
      ⟨e, h1, ha⟩ | ⟨h1, fl, h2, ha⟩ | ⟨h1, h2, hp, fl, h3, ha⟩ |
      ⟨h1, h2, h3, ⟨wf, h4, ha⟩ | ⟨h4, e, h5, ha⟩ | ⟨h4, h5, ha⟩⟩ | ⟨h1, hc, ha⟩
    · exact Or.inr (Or.inr (Or.inr (Or.inl ⟨hok, e, h1, ha⟩)))
    · exact Or.inr (Or.inr (Or.inr (Or.inr (Or.inl ⟨hok, h1, fl, h2, ha⟩))))
    · exact Or.inr (Or.inr (Or.inr (Or.inr (Or.inr (Or.inl ⟨hok, h1, h2, hp, fl, h3, ha⟩)))))
    · exact Or.inr (Or.inr (Or.inr (Or.inr (Or.inr (Or.inr (Or.inl
        ⟨hok, h1, h2, h3, wf, h4, ha⟩))))))
    · exact Or.inr (Or.inr (Or.inr (Or.inr (Or.inr (Or.inr (Or.inr (Or.inl
        ⟨hok, h1, h2, h3, h4, e, h5, ha⟩)))))))
    · exact Or.inr (Or.inr (Or.inr (Or.inr (Or.inr (Or.inr (Or.inr (Or.inr (Or.inl
        ⟨hok, h1, h2, h3, h4, h5, ha⟩))))))))
    · exact Or.inr (Or.inr (Or.inr (Or.inr (Or.inr (Or.inr (Or.inr (Or.inr (Or.inr
        ⟨hok, h1, hc, ha⟩))))))))

/-- A run that succeeds took the one path that ends with status 0. -/
theorem success_run (cfg : Config) (o : Oracle) (w : World)
    (h : (main cfg o w).exit = .success) :
    DumpOk o ∧ o.pointerRead = none ∧ o.uploadLogFault = none ∧
    (previousOf w ≠ "" → o.deleteLogFault = none) ∧ o.pointerWrite = none ∧ o.remove = none ∧
    main cfg o w = ⟨.success, removeDone (backupFileNameOf cfg o.now)
      (saveDone (Base (backupFileNameOf cfg o.now))
        (deletedWith cfg o (previousOf w)
          (uploaded cfg o (backupFileNameOf cfg o.now) (dumped cfg o w))))⟩ := by
  rcases run_cases cfg o w with ⟨e, h1, hm⟩ | ⟨e, h1, hf1, he, hm⟩ | ⟨e, h1, hf1, hd1, hm⟩ |
    ⟨_, e, hr, hm⟩ | ⟨_, hr, fl, hu, hm⟩ | ⟨_, hr, hu, _, fl, hl, hm⟩ |
    ⟨_, hr, hu, hl, wf, hw, hm⟩ | ⟨_, hr, hu, hl, hw, e, hx, hm⟩ | hlast | ⟨_, hr, hc, hm⟩
  all_goals first
    | exact hlast
    | (rw [hm] at h; cases h)

/-- A `filterMap` over a conditional list. -/
theorem filterMap_if {α β : Type} (f : α → Option β) (c : Prop) [Decidable c] (l l2 : List α) :
    List.filterMap f (if c then l else l2)
      = if c then List.filterMap f l else List.filterMap f l2 := by
  split <;> rfl

/-- An `any` over a conditional list. -/
theorem any_if {α : Type} (f : α → Bool) (c : Prop) [Decidable c] (l l2 : List α) :
    List.any (if c then l else l2) f = if c then List.any l f else List.any l2 f := by
  split <;> rfl

/-- The events of a `createBackupFolder` that does not fail. -/
theorem folderEvents_ok (cfg : Config) (o : Oracle)
    (hf : o.folderMissing = true → o.mkdir = none) :
    folderEvents cfg o
      = if o.folderMissing = true then [Event.mkdir (backupFolderOf cfg) none] else [] := by
  unfold folderEvents
  split
  · rename_i h
    rw [hf h]
  · rfl

/-- A pointer read that returns is no listed failure. -/
theorem listedFailure_readOf (w : World) :
    Event.listedFailure (.readPointer (readOf w)) = false := by
  unfold readOf
  cases w.pointer <;> rfl

/-- A pointer read is no history failure. -/
theorem historyFailure_readOf (w : World) :
    Event.historyFailure (.readPointer (readOf w)) = false := rfl

/-- A pointer read is no failure of the runtime. -/
theorem runtimeFailure_readOf (w : World) :
    Event.runtimeFailure (.readPointer (readOf w)) = false := rfl

/-- A pointer read that returns is no pointer failure. -/
theorem pointerFailure_readOf (w : World) :
    Event.pointerFailure (.readPointer (readOf w)) = false := by
  unfold readOf
  cases w.pointer <;> rfl

/-- A run calls `mysqldump` exactly when the settings load and the folder step does not
fail. -/
theorem dumpResults_main (cfg : Config) (o : Oracle) (w : World) :
    dumpResults (main cfg o w).final.trace
      = if o.envLoad = none ∧ (o.folderMissing = true → o.mkdir = none) then [o.dump] else [] := by
  by_cases hp : previousOf w = ""
  all_goals
    rcases run_cases cfg o w with ⟨e, h, hm⟩ | ⟨e, h, hf, he, hm⟩ | ⟨e, h, hf, hd, hm⟩ |
      ⟨⟨h, hf, hd⟩, _, _, hm⟩ | ⟨⟨h, hf, hd⟩, _, _, _, hm⟩ | ⟨⟨h, hf, hd⟩, _, _, _, _, _, hm⟩ |
      ⟨⟨h, hf, hd⟩, _, _, _, _, _, hm⟩ | ⟨⟨h, hf, hd⟩, _, _, _, _, _, _, hm⟩ |
      ⟨⟨h, hf, hd⟩, _, _, _, _, _, hm⟩ | ⟨⟨h, hf, hd⟩, _, _, hm⟩
  all_goals rw [hm]
  all_goals
    first
      | (solve | simp [h, dumpResults])
      | (solve | simp [h, hf, he, dumpResults])
      | skip
  all_goals rw [if_pos (And.intro h hf)]
  all_goals
    simp [hd, hp, dumpResults, readFailed, uploadCrashed, appendFailed, uploadTried, readDone, dumped,
      deleteTried, uploaded, deletedWith, appendDone, saveFailed, saveDone, removeFailed,
      removeDone, uploadEvents_if, deleteEvents_if, folderEvents, List.filterMap_append,
      filterMap_if]

/-- A run whose trace shows a successful dump passed the settings and folder steps. -/
theorem dumpOk_of_results (cfg : Config) (o : Oracle) (w : World)
    (h : dumpResults (main cfg o w).final.trace = [none]) : DumpOk o := by
  rw [dumpResults_main] at h
  by_cases hc : o.envLoad = none ∧ (o.folderMissing = true → o.mkdir = none)
  · rw [if_pos hc] at h
    exact ⟨hc.1, hc.2, by simpa using h⟩
  · rw [if_neg hc] at h
    simp at h

/-! ## C1: the previous object is deleted and the pointer moves on -/

/-- C1, as amended: in a run whose pointer file initially holds a non-empty
name `X`, whose dump succeeds, in which no history append and no access to the
pointer file fails and in which the Go runtime does not end the process for
want of the buffer for the dump file, `deleteFromS3` is called exactly once,
with key `X`, and the pointer file ends holding the base name of the new dump
file, whatever the upload and the deletion return. -/
theorem previous_deleted_pointer_updated (cfg : Config) (o : Oracle) (w : World) (X : String)
    (hX : w.pointer = some X) (hne : X ≠ "")
    (hDump : dumpResults (main cfg o w).final.trace = [none])
    (hHist : (main cfg o w).final.trace.any Event.historyFailure = false)
    (hPtr : (main cfg o w).final.trace.any Event.pointerFailure = false)
    (hRun : (main cfg o w).final.trace.any Event.runtimeFailure = false) :
    deleteCalls (main cfg o w).final.trace = [X] ∧
    (main cfg o w).final.world.pointer = some (Base (backupFileNameOf cfg o.now)) := by
  have hp : previousOf w = X := by simp [previousOf, hX]
  have hok := dumpOk_of_results cfg o w hDump
  obtain ⟨h, hf, hd⟩ := hok
  rcases run_cases cfg o w with ⟨e, h1, hm⟩ | ⟨e, h1, hf1, he, hm⟩ | ⟨e, h1, hf1, hd1, hm⟩ |
    ⟨_, e, hr, hm⟩ | ⟨_, hr, fl, hu, hm⟩ | ⟨_, hr, hu, _, fl, hl, hm⟩ |
    ⟨_, hr, hu, hl, wf, hw, hm⟩ | ⟨_, hr, hu, hl, hw, e, hx, hm⟩ |
    ⟨_, hr, hu, hl, hw, hx, hm⟩ | ⟨_, hr, hc, hm⟩
  all_goals rw [hm] at hHist hPtr hRun ⊢
  all_goals
    simp [hp, hne, Event.historyFailure, Event.pointerFailure, Event.runtimeFailure, deleteCalls,
      readFailed, uploadCrashed, appendFailed, uploadTried, readDone, dumped, deleteTried,
      uploaded, deletedWith, appendDone, saveFailed, saveDone, removeFailed, removeDone,
      uploadEvents_if, deleteEvents_if, folderEvents, List.filterMap_append, filterMap_if,
      any_if] at hHist hPtr hRun ⊢
  all_goals simp_all

/-- C1 witness: with S3 failing both the upload and the deletion, the previous
object is still asked to be deleted once and the pointer moves on. -/
theorem previous_deleted_pointer_updated_witness :
    worldOld.pointer = some "db_old.sql" ∧
    dumpResults (main cfgA oracleS3Down worldOld).final.trace = [none] ∧
    deleteCalls (main cfgA oracleS3Down worldOld).final.trace = ["db_old.sql"] ∧
    (main cfgA oracleS3Down worldOld).final.world.pointer
      = some (Base (backupFileNameOf cfgA oracleS3Down.now)) :=
  ⟨rfl, by decide,
    previous_deleted_pointer_updated cfgA oracleS3Down worldOld "db_old.sql" rfl (by decide)
      (by decide) (by decide) (by decide) (by decide)⟩

/-- C1 fails as stated: the pointer file holds `db_old.sql`, the dump succeeds
and the new base name is `db_20240102_030405.sql`, but the history log cannot
be opened, so the run exits in `appendToBackupLog`: `deleteFromS3` is never
called and the pointer file still holds the old name. Likewise a pointer file
that cannot be read stops the run before any delete call, and one that cannot
be written does not end up holding the new name. And when the dump file is too
large for the buffer `uploadToS3` asks for, the Go runtime ends the process
there: again no delete call, and the pointer file still holds the old name. -/
theorem history_fault_skips_delete_and_pointer :
    worldOld.pointer = some "db_old.sql" ∧
    Base (backupFileNameOf cfgA timeA) = "db_20240102_030405.sql" ∧
    (dumpResults (main cfgA oracleDumpTooLarge worldOld).final.trace = [none] ∧
      (main cfgA oracleDumpTooLarge worldOld).exit = .crashed ∧
      (main cfgA oracleDumpTooLarge worldOld).final.trace.any Event.historyFailure = false ∧
      (main cfgA oracleDumpTooLarge worldOld).final.trace.any Event.pointerFailure = false ∧
      deleteCalls (main cfgA oracleDumpTooLarge worldOld).final.trace = [] ∧
      (main cfgA oracleDumpTooLarge worldOld).final.world.pointer = some "db_old.sql") ∧
    (dumpResults (main cfgA oracleHistoryLocked worldOld).final.trace = [none] ∧
      deleteCalls (main cfgA oracleHistoryLocked worldOld).final.trace = [] ∧
      (main cfgA oracleHistoryLocked worldOld).final.world.pointer = some "db_old.sql") ∧
    (dumpResults (main cfgA oraclePointerReadFails worldOld).final.trace = [none] ∧
      deleteCalls (main cfgA oraclePointerReadFails worldOld).final.trace = [] ∧
      (main cfgA oraclePointerReadFails worldOld).final.world.pointer = some "db_old.sql") ∧
    (dumpResults (main cfgA oraclePointerWriteFails worldOld).final.trace = [none] ∧
      deleteCalls (main cfgA oraclePointerWriteFails worldOld).final.trace = ["db_old.sql"] ∧
      (main cfgA oraclePointerWriteFails worldOld).final.world.pointer = some "") := by
  decide

/-! ## C2: a failed upload is logged and does not stop the run -/

/-- C2, as amended: in a run whose dump succeeds, whose `uploadToS3` returns an
error `e` and in which no history append fails, the history log gains, right
after its previous content, the failure entry naming the dump file and `e`; the
run goes on to the delete-previous step (one call of `deleteFromS3`, with the
previous name, when that name is not empty) and to the pointer update. -/
theorem upload_error_logged_run_continues (cfg : Config) (o : Oracle) (w : World) (e : String)
    (hUp : uploadResults (main cfg o w).final.trace = [some e])
    (hHist : (main cfg o w).final.trace.any Event.historyFailure = false) :
    (∃ rest, (main cfg o w).final.world.history
      = some (w.history.getD "" ++
          historyLine ("Failed to upload backup: " ++ backupFileNameOf cfg o.now ++ ", error: " ++ e)
            o.uploadLogTime ++ rest)) ∧
    (historyAppends (main cfg o w).final.trace).head?
      = some ("Failed to upload backup: " ++ backupFileNameOf cfg o.now ++ ", error: " ++ e) ∧
    deleteCalls (main cfg o w).final.trace = (if previousOf w = "" then [] else [previousOf w]) ∧
    pointerWrites (main cfg o w).final.trace = [Base (backupFileNameOf cfg o.now)] := by
  by_cases hp : previousOf w = ""
  all_goals
    rcases run_cases cfg o w with ⟨e1, h1, hm⟩ | ⟨e1, h1, hf1, he, hm⟩ | ⟨e1, h1, hf1, hd1, hm⟩ |
      ⟨_, e1, hr, hm⟩ | ⟨_, hr, fl, hu, hm⟩ | ⟨_, hr, hu, _, fl, hl, hm⟩ |
      ⟨_, hr, hu, hl, wf, hw, hm⟩ | ⟨_, hr, hu, hl, hw, e1, hx, hm⟩ |
      ⟨_, hr, hu, hl, hw, hx, hm⟩ | ⟨_, hr, hc, hm⟩
  all_goals rw [hm] at hHist hUp ⊢
  all_goals
    simp [hp, Event.historyFailure, deleteCalls, uploadResults, pointerWrites, historyAppends,
      readFailed, uploadCrashed, appendFailed, uploadTried, readDone, dumped, deleteTried, uploaded, deletedWith,
      appendDone, saveFailed, saveDone, removeFailed, removeDone, uploadEvents_if,
      deleteEvents_if, folderEvents, List.filterMap_append, filterMap_if, any_if,
      uploadMessage] at hHist hUp ⊢
  all_goals simp [hUp, uploadMessage, String.append_assoc]
  all_goals first
    | (refine ⟨"", ?_⟩; solve | simp)
    | (refine ⟨historyLine (deleteMessage (previousOf w) (deleteErr o)) o.deleteLogTime, ?_⟩
       solve | simp [String.append_assoc])

/-- C2 witness: `PutObject` times out; the failure is logged and the run goes
on to delete `db_old.sql` and to write the pointer. -/
theorem upload_error_logged_run_continues_witness :
    uploadResults (main cfgA oracleS3Down worldOld).final.trace
      = [some "failed to upload to S3: timeout"] ∧
    (historyAppends (main cfgA oracleS3Down worldOld).final.trace).head?
      = some ("Failed to upload backup: " ++ backupFileNameOf cfgA oracleS3Down.now ++
          ", error: " ++ "failed to upload to S3: timeout") ∧
    deleteCalls (main cfgA oracleS3Down worldOld).final.trace = ["db_old.sql"] ∧
    pointerWrites (main cfgA oracleS3Down worldOld).final.trace = ["db_20240102_030405.sql"] :=
  have h := upload_error_logged_run_continues cfgA oracleS3Down worldOld
    "failed to upload to S3: timeout" (by decide) (by decide)
  ⟨by decide, h.2.1, h.2.2.1, h.2.2.2⟩

/-- C2 fails as stated: the dump succeeds and `uploadToS3` returns an error,
but the history log cannot be opened; the log gains no entry and the run stops
before the delete-previous step and the pointer update. -/
theorem upload_error_with_history_fault_stops_run :
    dumpResults (main cfgA oraclePutFailsHistoryLocked worldOld).final.trace = [none] ∧
    uploadResults (main cfgA oraclePutFailsHistoryLocked worldOld).final.trace
      = [some "failed to upload to S3: timeout"] ∧
    (main cfgA oraclePutFailsHistoryLocked worldOld).final.world.history = worldOld.history ∧
    previousOf worldOld = "db_old.sql" ∧
    deleteCalls (main cfgA oraclePutFailsHistoryLocked worldOld).final.trace = [] ∧
    pointerWrites (main cfgA oraclePutFailsHistoryLocked worldOld).final.trace = [] ∧
    (main cfgA oraclePutFailsHistoryLocked worldOld).exit = .fatal := by
  decide

/-! ## C3: which failures are fatal -/

/-- C3, as amended: a run ends with a non-zero status if and only if one of
the six listed operations fails, or an append to the history log fails, or the
Go runtime ends the process because the buffer for the dump file cannot be
provided in `uploadToS3`. The first two kinds are the fatal exits of
`log.Fatalf` (status 1), the third is the exit of the runtime (status 2). Every
other run ends with status 0 right after logging the final success line. In
particular a failure of the upload or of the previous-object deletion that is
returned as an error never ends the process. -/
theorem nonzero_exit_iff_listed_history_or_runtime_failure (cfg : Config) (o : Oracle)
    (w : World) :
    ((main cfg o w).exit ≠ .success ↔
      (main cfg o w).final.trace.any
        (fun ev => ev.listedFailure || ev.historyFailure || ev.runtimeFailure) = true) ∧
    ((main cfg o w).exit = .fatal ↔
      (main cfg o w).final.trace.any
        (fun ev => ev.listedFailure || ev.historyFailure) = true) ∧
    ((main cfg o w).exit = .crashed ↔
      (main cfg o w).final.trace.any Event.runtimeFailure = true) ∧
    ((main cfg o w).exit = .success →
      (main cfg o w).final.log.getLast? = some successLine) := by
  by_cases hp : previousOf w = ""
  all_goals
    rcases run_cases cfg o w with ⟨e1, h1, hm⟩ | ⟨e1, h1, hf1, he, hm⟩ | ⟨e1, h1, hf1, hd1, hm⟩ |
      ⟨⟨_, hf, _⟩, e1, hr, hm⟩ | ⟨⟨_, hf, _⟩, hr, fl, hu, hm⟩ |
      ⟨⟨_, hf, _⟩, hr, hu, _, fl, hl, hm⟩ | ⟨⟨_, hf, _⟩, hr, hu, hl, wf, hw, hm⟩ |
      ⟨⟨_, hf, _⟩, hr, hu, hl, hw, e1, hx, hm⟩ | ⟨⟨_, hf, _⟩, hr, hu, hl, hw, hx, hm⟩ |
      ⟨⟨_, hf, _⟩, hr, hc, hm⟩
  all_goals rw [hm]
  all_goals
    first
      | (have hfe := folderEvents_ok cfg o hf
         simp [hp, hfe, readFailed, uploadCrashed, appendFailed,
           uploadTried, readDone, dumped, deleteTried, uploaded, deletedWith, appendDone,
           saveFailed, saveDone, removeFailed, removeDone, uploadEvents_if, deleteEvents_if,
           any_if, listedFailure_readOf, historyFailure_readOf, runtimeFailure_readOf]
         try simp [Event.historyFailure, Event.listedFailure, Event.runtimeFailure])
      | simp [Event.historyFailure, Event.listedFailure, Event.runtimeFailure, folderEvents,
          any_if]

/-- C3 fails as stated: none of the six listed operations fails, yet the run is
fatal, because `appendToBackupLog` exits when the history log cannot be opened
while the outcome of a successful upload is being recorded. And a dump file too
large for the buffer of `uploadToS3` ends the process with a non-zero status
while no listed operation and no history append fails. -/
theorem history_fault_is_fatal_but_unlisted :
    ((main cfgA oracleHistoryLocked worldOld).exit = .fatal ∧
      (main cfgA oracleHistoryLocked worldOld).final.trace.any Event.listedFailure = false ∧
      (main cfgA oracleHistoryLocked worldOld).final.log.getLast?
        = some "Failed to open backup history log: permission denied") ∧
    ((main cfgA oracleDumpTooLarge worldOld).exit = .crashed ∧
      (main cfgA oracleDumpTooLarge worldOld).final.trace.any
        (fun ev => ev.listedFailure || ev.historyFailure) = false ∧
      (main cfgA oracleDumpTooLarge worldOld).final.log.getLast? ≠ some successLine) := by
  decide

/-! ## C4: the delete-previous guard -/

/-- C4, as amended: in a run whose dump succeeds, in which no history append
and no access to the pointer file fails and in which the Go runtime does not end
the process for want of the buffer for the dump file, `deleteFromS3` is
attempted if and only if `readPreviousBackupLog` returned a non-empty string,
and then once, with that string; when there is no pointer file or it is empty no
delete call is made; and the run ends with the pointer file holding the new dump
file's base name. -/
theorem delete_attempted_iff_pointer_nonempty (cfg : Config) (o : Oracle) (w : World)
    (hDump : dumpResults (main cfg o w).final.trace = [none])
    (hHist : (main cfg o w).final.trace.any Event.historyFailure = false)
    (hPtr : (main cfg o w).final.trace.any Event.pointerFailure = false)
    (hRun : (main cfg o w).final.trace.any Event.runtimeFailure = false) :
    (deleteCalls (main cfg o w).final.trace ≠ [] ↔
      ∃ d, d ≠ "" ∧ pointerReads (main cfg o w).final.trace = [ReadResult.data d]) ∧
    (∀ d, pointerReads (main cfg o w).final.trace = [ReadResult.data d] → d ≠ "" →
      deleteCalls (main cfg o w).final.trace = [d]) ∧
    (w.pointer = none ∨ w.pointer = some "" → deleteCalls (main cfg o w).final.trace = []) ∧
    (main cfg o w).final.world.pointer = some (Base (backupFileNameOf cfg o.now)) := by
  obtain ⟨h, hf, hd⟩ := dumpOk_of_results cfg o w hDump
  clear hDump
  have hfe := folderEvents_ok cfg o hf
  have hcases : w.pointer = none ∨ w.pointer = some "" ∨ ∃ d, d ≠ "" ∧ w.pointer = some d := by
    cases hw0 : w.pointer with
    | none => exact Or.inl rfl
    | some d =>
      by_cases hd0 : d = ""
      · exact Or.inr (Or.inl (by rw [hd0]))
      · exact Or.inr (Or.inr ⟨d, hd0, rfl⟩)
  rcases hcases with hw0 | hw0 | ⟨d, hd0, hw0⟩
  all_goals
    rcases run_cases cfg o w with ⟨e, h1, hm⟩ | ⟨e, h1, hf1, he, hm⟩ | ⟨e, h1, hf1, hd1, hm⟩ |
      ⟨_, e, hr, hm⟩ | ⟨_, hr, fl, hu, hm⟩ | ⟨_, hr, hu, _, fl, hl, hm⟩ |
      ⟨_, hr, hu, hl, wf, hw, hm⟩ | ⟨_, hr, hu, hl, hw, e, hx, hm⟩ |
      ⟨_, hr, hu, hl, hw, hx, hm⟩ | ⟨_, hr, hc, hm⟩
  all_goals rw [hm] at hHist hPtr hRun ⊢
  all_goals clear hm
  all_goals
    first
      | (solve | simp [h] at h1)
      | (solve | simp [hd] at hd1)
      | (solve | simp [hf hf1] at he)
      | (solve | simp [uploadCrashed, Event.runtimeFailure] at hRun)
      | (simp [hfe, hw0, hd0, previousOf, readOf, deletedWith, Event.historyFailure,
          Event.pointerFailure, deleteCalls, pointerReads, readFailed, uploadCrashed,
          appendFailed, uploadTried, readDone, dumped, deleteTried, uploaded, appendDone,
          saveFailed, saveDone, removeFailed, removeDone, uploadEvents_if, deleteEvents_if,
          List.filterMap_append, filterMap_if, any_if] at hHist hPtr ⊢)
      | (simp [hfe, hw0, previousOf, readOf, deletedWith, Event.historyFailure,
          Event.pointerFailure, deleteCalls, pointerReads, readFailed, uploadCrashed,
          appendFailed, uploadTried, readDone, dumped, deleteTried, uploaded, appendDone,
          saveFailed, saveDone, removeFailed, removeDone, uploadEvents_if, deleteEvents_if,
          List.filterMap_append, filterMap_if, any_if] at hHist hPtr ⊢)

/-- C4 witness: on a first run (no pointer file) no delete call is made and the
pointer file ends holding the new base name. -/
theorem delete_attempted_iff_pointer_nonempty_witness :
    dumpResults (main cfgA oracleOk worldFresh).final.trace = [none] ∧
    deleteCalls (main cfgA oracleOk worldFresh).final.trace = [] ∧
    (main cfgA oracleOk worldFresh).final.world.pointer = some "db_20240102_030405.sql" :=
  have h := delete_attempted_iff_pointer_nonempty cfgA oracleOk worldFresh
    (by decide) (by decide) (by decide) (by decide)
  ⟨by decide, h.2.2.1 (Or.inl rfl), by decide⟩

/-- C4 fails as stated: the dump succeeds and `readPreviousBackupLog` returns the
non-empty `db_old.sql`, but the history log cannot be opened after the upload,
so `deleteFromS3` is not attempted and the pointer file is not rewritten. And on
a first run (no pointer file) whose pointer write fails, the run does not end
with the pointer file holding the new base name, nor does a run whose pointer
file is empty and cannot be read. And when the dump file is too
large for the buffer `uploadToS3` asks for, the Go runtime ends the process
after the non-empty `db_old.sql` was read: `deleteFromS3` is not attempted and
the pointer file is not rewritten. -/
theorem nonempty_pointer_without_delete_attempt :
    (dumpResults (main cfgA oracleDumpTooLarge worldOld).final.trace = [none] ∧
      (main cfgA oracleDumpTooLarge worldOld).final.trace.any Event.historyFailure = false ∧
      (main cfgA oracleDumpTooLarge worldOld).final.trace.any Event.pointerFailure = false ∧
      pointerReads (main cfgA oracleDumpTooLarge worldOld).final.trace
        = [ReadResult.data "db_old.sql"] ∧
      deleteCalls (main cfgA oracleDumpTooLarge worldOld).final.trace = [] ∧
      pointerWrites (main cfgA oracleDumpTooLarge worldOld).final.trace = [] ∧
      (main cfgA oracleDumpTooLarge worldOld).final.world.pointer = some "db_old.sql") ∧
    (dumpResults (main cfgA oracleHistoryLocked worldOld).final.trace = [none] ∧
      pointerReads (main cfgA oracleHistoryLocked worldOld).final.trace
        = [ReadResult.data "db_old.sql"] ∧
      deleteCalls (main cfgA oracleHistoryLocked worldOld).final.trace = [] ∧
      pointerWrites (main cfgA oracleHistoryLocked worldOld).final.trace = []) ∧
    (worldFresh.pointer = none ∧
      dumpResults (main cfgA oraclePointerWriteFails worldFresh).final.trace = [none] ∧
      Base (backupFileNameOf cfgA timeA) = "db_20240102_030405.sql" ∧
      (main cfgA oraclePointerWriteFails worldFresh).final.world.pointer = some "") ∧
    (worldEmptyPointer.pointer = some "" ∧
      dumpResults (main cfgA oraclePointerReadFails worldEmptyPointer).final.trace = [none] ∧
      (main cfgA oraclePointerReadFails worldEmptyPointer).final.world.pointer = some "") := by
  decide

/-! ## C5: a failed dump -/

/-- C5: in a run in which `backupMySQL` returns an error `e` the process exits
fatally at once: the fatal line and the `mysqldump` call are the last things
logged and done, the pointer file and the history log are as before the run, and
the run makes no pointer read, no upload call, no delete call, no history
append, no pointer write and no removal of the local file. -/
theorem dump_failure_aborts (cfg : Config) (o : Oracle) (w : World) (e : String)
    (h : dumpResults (main cfg o w).final.trace = [some e]) :
    (main cfg o w).exit = .fatal ∧
    (main cfg o w).final.log.getLast? = some ("Error backing up MySQL: " ++ e) ∧
    (main cfg o w).final.trace.getLast?
      = some (.mysqldump (dumpArgs cfg (backupFileNameOf cfg o.now)) (some e)) ∧
    (main cfg o w).final.world.pointer = w.pointer ∧
    (main cfg o w).final.world.history = w.history ∧
    pointerReads (main cfg o w).final.trace = [] ∧
    uploadCalls (main cfg o w).final.trace = [] ∧
    putKeys (main cfg o w).final.trace = [] ∧
    deleteCalls (main cfg o w).final.trace = [] ∧
    historyAppends (main cfg o w).final.trace = [] ∧
    pointerWrites (main cfg o w).final.trace = [] ∧
    removeCalls (main cfg o w).final.trace = [] := by
  rw [dumpResults_main] at h
  by_cases hc : o.envLoad = none ∧ (o.folderMissing = true → o.mkdir = none)
  · rw [if_pos hc] at h
    have hd : o.dump = some e := by simpa using h
    rw [main_dumpFail cfg o w e hc.1 hc.2 hd]
    simp [pointerReads, uploadCalls, putKeys, deleteCalls, historyAppends, pointerWrites,
      removeCalls, folderEvents, List.filterMap_append]
    split <;> simp
  · rw [if_neg hc] at h
    simp at h

/-- C5 witness: `mysqldump` exits with status 2. -/
theorem dump_failure_aborts_witness :
    dumpResults (main cfgA oracleDumpFails worldOld).final.trace = [some "exit status 2"] ∧
    (main cfgA oracleDumpFails worldOld).exit = .fatal ∧
    (main cfgA oracleDumpFails worldOld).final.world.pointer = some "db_old.sql" ∧
    (main cfgA oracleDumpFails worldOld).final.world.history = none :=
  have h := dump_failure_aborts cfgA oracleDumpFails worldOld "exit status 2" (by decide)
  ⟨by decide, h.1, h.2.2.2.1, h.2.2.2.2.1⟩

/-! ## C6: the history log -/

/-- C6, as amended: the history log is append-only, one entry per attempt. After
a run that completes, the log is its previous content (empty when the file did
not exist) followed by exactly one entry for the upload and then, if and only if
the previous pointer was non-empty, exactly one entry for the deletion, and
these are the only history appends of the run. The upload entry is the success
message with the dump file name when `uploadToS3` returned no error and the
failure message otherwise; each entry is its message, ` at `, the RFC 3339 time
stamp and a newline, and it is a single line whenever its message holds no line
break. -/
theorem history_log_appended (cfg : Config) (o : Oracle) (w : World)
    (h : (main cfg o w).exit = .success) :
    ∃ uerr, uploadResults (main cfg o w).final.trace = [uerr] ∧
      (previousOf w = "" →
        (main cfg o w).final.world.history
          = some (w.history.getD "" ++
              historyLine (uploadMessage (backupFileNameOf cfg o.now) uerr) o.uploadLogTime) ∧
        historyAppends (main cfg o w).final.trace
          = [uploadMessage (backupFileNameOf cfg o.now) uerr]) ∧
      (previousOf w ≠ "" → ∃ derr,
        deleteResults (main cfg o w).final.trace = [derr] ∧
        (main cfg o w).final.world.history
          = some (w.history.getD "" ++
              historyLine (uploadMessage (backupFileNameOf cfg o.now) uerr) o.uploadLogTime ++
              historyLine (deleteMessage (previousOf w) derr) o.deleteLogTime) ∧
        historyAppends (main cfg o w).final.trace
          = [uploadMessage (backupFileNameOf cfg o.now) uerr,
              deleteMessage (previousOf w) derr]) ∧
      uploadMessage (backupFileNameOf cfg o.now) none
        = "Successfully uploaded backup: " ++ backupFileNameOf cfg o.now ∧
      (∀ e, uploadMessage (backupFileNameOf cfg o.now) (some e)
        = "Failed to upload backup: " ++ backupFileNameOf cfg o.now ++ ", error: " ++ e) ∧
      (∀ m t, historyLine m t = m ++ " at " ++ formatRFC3339 t ++ "\n") ∧
      (∀ m t, (∀ x ∈ m.data, x ≠ '\n') → lineBreaks (historyLine m t) = 1) := by
  obtain ⟨⟨_, hf, _⟩, hr, hu, hl, hw, hx, hm⟩ := success_run cfg o w h
  have hfe := folderEvents_ok cfg o hf
  refine ⟨uploadErr o, ?_, ?_, ?_, rfl, fun _ => rfl, fun _ _ => rfl,
    historyLine_single_line⟩
  · rw [hm]
    by_cases hp : previousOf w = ""
    all_goals
      simp [hp, hfe, uploadResults, uploadTried, readDone, dumped, deleteTried, uploaded,
        deletedWith, appendDone, saveDone, removeDone, uploadEvents_if, deleteEvents_if,
        List.filterMap_append, filterMap_if]
  · intro hp
    rw [hm]
    simp [hp, hfe, historyAppends, uploadTried, readDone, dumped, uploaded,
      deletedWith, appendDone, saveDone, removeDone, uploadEvents_if,
      List.filterMap_append, filterMap_if]
  · intro hp
    refine ⟨deleteErr o, ?_⟩
    rw [hm]
    simp [hp, hfe, historyAppends, deleteResults, uploadTried, readDone, dumped, deleteTried,
      uploaded, deletedWith, appendDone, saveDone, removeDone, uploadEvents_if, deleteEvents_if,
      List.filterMap_append, filterMap_if]

/-- C6 witness: a completed run with a previous pointer, S3 failing both calls. -/
theorem history_log_appended_witness :
    (main cfgA oracleS3Down worldOld).exit = .success ∧
    (main cfgA oracleS3Down worldOld).final.world.history
      = some ("Failed to upload backup: backup/db_20240102_030405.sql, " ++
          "error: failed to upload to S3: timeout at 2024-01-02T03:04:05Z\n" ++
          "Failed to delete previous backup: db_old.sql, " ++
          "error: failed to delete S3 file: timeout at 2024-01-02T03:04:05Z\n") ∧
    ∃ uerr, uploadResults (main cfgA oracleS3Down worldOld).final.trace = [uerr] :=
  have h := history_log_appended cfgA oracleS3Down worldOld (by decide)
  ⟨by decide, by rfl, h.elim fun u hu => ⟨u, hu.1⟩⟩

/-- C6 fails as stated: a first run (empty previous pointer) whose upload is
refused completes with exactly one history append, but the text of the refusal
holds a line break, so the log gains two lines for the one upload attempt. -/
theorem upload_failure_entry_spans_two_lines :
    (main cfgA oracleAccessDenied worldFresh).exit = .success ∧
    previousOf worldFresh = "" ∧
    worldFresh.history = none ∧
    (historyAppends (main cfgA oracleAccessDenied worldFresh).final.trace).length = 1 ∧
    (main cfgA oracleAccessDenied worldFresh).final.world.history
      = some ("Failed to upload backup: backup/db_20240102_030405.sql, error: " ++
          "failed to upload to S3: AccessDenied: Access Denied\n" ++
          "\tstatus code: 403 at 2024-01-02T03:04:05Z\n") ∧
    lineBreaks (((main cfgA oracleAccessDenied worldFresh).final.world.history).getD "") = 2 := by
  refine ⟨by decide, by decide, rfl, by decide, by rfl, by rfl⟩

/-! ## C7: the pointer round trip -/

/-- C7, as amended: the pointer round trip. If `saveCurrentBackupLog v` returns,
then in any later state of this or a following run in which the pointer file is
as the save left it (no intervening write), a `readPreviousBackupLog` whose read
of the file meets no error returns exactly `v`, the very string, nothing trimmed
and nothing added; a read that meets an error does not return, it ends the
process with the fatal line naming the error, leaving the pointer file as it
is; and whatever the read meets, it returns no other value than `v`. -/
theorem pointer_round_trip (o o2 : Oracle) (v : String) (p p1 q : Proc)
    (hSave : saveCurrentBackupLog o v p = .ret () p1)
    (hq : q.world.pointer = p1.world.pointer) :
    (o2.pointerRead = none → ∃ q2, readPreviousBackupLog o2 q = .ret v q2) ∧
    (∀ v2 q2, readPreviousBackupLog o2 q = .ret v2 q2 → v2 = v) ∧
    (∀ e, o2.pointerRead = some e → ∃ q2, readPreviousBackupLog o2 q = .fatal q2 ∧
      q2.log.getLast? = some ("Failed to read previous backup log: " ++ e) ∧
      q2.world.pointer = some v) := by
  have hp : q.world.pointer = some v := by
    rw [hq]
    unfold saveCurrentBackupLog at hSave
    cases hw : o.pointerWrite with
    | some wf => simp [hw] at hSave
    | none =>
      simp [hw] at hSave
      rw [← hSave]
  refine ⟨?_, ?_, ?_⟩
  · intro hr
    exact ⟨_, by rw [readPreviousBackupLog_ok o2 q hr, previousOf, hp]; rfl⟩
  · intro v2 q2 h2
    cases hr : o2.pointerRead with
    | some e => rw [readPreviousBackupLog_fail o2 q e hr] at h2; cases h2
    | none =>
      rw [readPreviousBackupLog_ok o2 q hr, previousOf, hp] at h2
      injection h2 with h3 _
      exact h3.symm
  · intro e hr
    refine ⟨_, readPreviousBackupLog_fail o2 q e hr, ?_, ?_⟩
    · exact List.getLast?_concat q.log
    · exact hp

/-- C7 witness: writing `db_1.sql` over an older pointer and reading it back at
the start of a later run. -/
theorem pointer_round_trip_witness :
    saveCurrentBackupLog oracleOk "db_1.sql" ⟨worldOld, [], []⟩
      = .ret () ⟨⟨some "db_1.sql", none, []⟩, [], [.writePointer "db_1.sql" none]⟩ ∧
    ∃ q2, readPreviousBackupLog oracleOk ⟨⟨some "db_1.sql", some "history", ["x.sql"]⟩, [], []⟩
      = .ret "db_1.sql" q2 :=
  ⟨rfl, (pointer_round_trip oracleOk oracleOk "db_1.sql" ⟨worldOld, [], []⟩ _
    ⟨⟨some "db_1.sql", some "history", ["x.sql"]⟩, [], []⟩ rfl rfl).1 rfl⟩

/-- C7 fails as stated: `saveCurrentBackupLog "db_1.sql"` completes and nothing
writes the pointer file afterwards, but the following `readPreviousBackupLog`
cannot read the file (permission denied): it returns nothing, neither
`db_1.sql` nor any other value, and ends the process through `log.Fatalf`. -/
theorem saved_pointer_unreadable_read_is_fatal :
    saveCurrentBackupLog oracleOk "db_1.sql" ⟨worldOld, [], []⟩
      = .ret () ⟨⟨some "db_1.sql", none, []⟩, [], [.writePointer "db_1.sql" none]⟩ ∧
    readPreviousBackupLog oraclePointerReadFails
        ⟨⟨some "db_1.sql", none, []⟩, [], [.writePointer "db_1.sql" none]⟩
      = .fatal ⟨⟨some "db_1.sql", none, []⟩,
          ["Failed to read previous backup log: permission denied"],
          [.writePointer "db_1.sql" none, .readPointer (.failed "permission denied")]⟩ ∧
    (∀ v2 q2, readPreviousBackupLog oraclePointerReadFails
        ⟨⟨some "db_1.sql", none, []⟩, [], [.writePointer "db_1.sql" none]⟩ ≠ .ret v2 q2) :=
  ⟨rfl, rfl, fun _ _ h => Res.noConfusion h⟩

/-! ## C8: the name of the dump file -/

/-- C8, as amended: for every folder prefix, every file prefix that holds no
separator `/` and every run time, the base name of `backupFileName` (the storage
key and the pointer value) is exactly the file prefix, the time stamp and
`.sql`; its directory is `filepath.Clean` of the folder name `f ++ "backup"`,
hence that very name whenever it is in clean form, as it is when the folder
prefix holds no separator either; and the stamp has 15 characters when the year
has at most four digits. -/
theorem dump_file_name (cfg : Config) (t : Time)
    (hp : ∀ c ∈ cfg.backupFilePrefix.data, c ≠ '/') :
    Base (backupFileNameOf cfg t) = cfg.backupFilePrefix ++ formatStamp t ++ ".sql" ∧
    Dir (backupFileNameOf cfg t) = Clean (cfg.backupFolderPrefix ++ "backup") ∧
    (Clean (cfg.backupFolderPrefix ++ "backup") = cfg.backupFolderPrefix ++ "backup" →
      Dir (backupFileNameOf cfg t) = cfg.backupFolderPrefix ++ "backup") ∧
    ((∀ c ∈ cfg.backupFolderPrefix.data, c ≠ '/') →
      Dir (backupFileNameOf cfg t) = cfg.backupFolderPrefix ++ "backup") ∧
    (t.year < 10000 → (formatStamp t).length = 15) := by
  have hel := dumpElement_isElem cfg t hp
  obtain ⟨ws, hws, hjoin, hdir⟩ :=
    clean_join (backupFolderOf cfg).data (dumpElement cfg t).data
      (backupFolderOf_data_ne_nil cfg) hel
  have hdata : (backupFileNameOf cfg t).data = ws.reverse ++ (dumpElement cfg t).data := by
    rw [backupFileNameOf_data, hjoin]
  have hrevns : ∀ x ∈ (dumpElement cfg t).data.reverse, x ≠ '/' :=
    fun x hx => hel.2.1 x (List.mem_reverse.mp hx)
  have hne : backupFileNameOf cfg t ≠ "" := by
    intro h
    have h2 := congrArg String.data h
    rw [hdata] at h2
    have h3 := congrArg List.length h2
    have h4 := List.length_pos.mpr hel.1
    rw [List.length_append] at h3
    have h5 : ("" : String).data.length = 0 := rfl
    omega
  have hstrip : (backupFileNameOf cfg t).data.reverse.dropWhile (· = '/')
      = (dumpElement cfg t).data.reverse ++ ws := by
    rw [hdata, List.reverse_append, List.reverse_reverse]
    cases hr : (dumpElement cfg t).data.reverse with
    | nil => exact absurd (List.reverse_eq_nil_iff.mp hr) hel.1
    | cons x xs =>
      have hx : x ≠ '/' := hrevns x (by rw [hr]; exact List.mem_cons_self _ _)
      simp [List.dropWhile_cons, hx]
  have hbase : Base (backupFileNameOf cfg t) = dumpElement cfg t := by
    unfold Base
    rw [if_neg hne]
    simp only [hstrip, takeWhile_elem _ ws hrevns hws, List.reverse_reverse]
    rw [if_neg hel.1]
  have hdirEq : Dir (backupFileNameOf cfg t) = Clean (backupFolderOf cfg) := by
    unfold Dir Clean
    rw [hdata, List.reverse_append, List.reverse_reverse, dropWhile_elem _ ws hrevns hws]
    simp only [hdir]
  refine ⟨hbase, hdirEq, fun h => hdirEq.trans h, ?_, formatStamp_length t⟩
  intro hf
  rw [hdirEq]
  have hfe : IsElem (backupFolderOf cfg).data := by
    have hd : (backupFolderOf cfg).data
        = cfg.backupFolderPrefix.data ++ ['b', 'a', 'c', 'k', 'u', 'p'] := by
      simp [backupFolderOf, String.data_append]
    rw [hd]
    refine ⟨by simp, ?_, ?_, ?_⟩
    · intro x hx
      rcases List.mem_append.mp hx with hx | hx
      · exact hf x hx
      · simp only [List.mem_cons, List.mem_singleton, List.not_mem_nil, or_false] at hx
        rcases hx with rfl | rfl | rfl | rfl | rfl | rfl <;> decide
    · intro h
      have := congrArg List.length h
      simp at this
    · intro h
      have := congrArg List.length h
      simp at this
  have hhead : false = decide ((backupFolderOf cfg).data.head? = some '/') := by
    cases hd : (backupFolderOf cfg).data with
    | nil => rfl
    | cons x xs =>
      have hx : x ≠ '/' := hfe.2.1 x (by rw [hd]; exact List.mem_cons_self _ _)
      simp [hx]
  have hrun := cleanRun_elem false (backupFolderOf cfg).data [] (cleanInit false) hfe (Or.inl rfl)
  rw [List.append_nil, cleanRun_nil] at hrun
  have hc := cleanChars_eq (backupFolderOf cfg).data hfe.1 false hhead
  have hb : pathBody false (backupFolderOf cfg).data = (backupFolderOf cfg).data := rfl
  rw [hb, hrun] at hc
  have hstep : (elemStep false (backupFolderOf cfg).data (cleanInit false)).1
      = (backupFolderOf cfg).data.reverse := by
    simp [elemStep, cleanInit, withSep]
  rw [hstep, List.length_reverse, List.reverse_reverse,
    if_neg (fun h => hfe.1 (List.length_eq_zero.mp h))] at hc
  show Clean (backupFolderOf cfg) = backupFolderOf cfg
  unfold Clean
  rw [hc]

/-- C8 witness: the default settings of the samples, prefix `db_`. -/
theorem dump_file_name_witness :
    (∀ c ∈ cfgA.backupFilePrefix.data, c ≠ '/') ∧
    Base (backupFileNameOf cfgA timeA) = "db_20240102_030405.sql" ∧
    Dir (backupFileNameOf cfgA timeA) = "backup" :=
  have h := dump_file_name cfgA timeA (by decide)
  ⟨by decide, h.1.trans (by decide), h.2.1.trans (by decide)⟩

/-- C8 fails as stated. With file prefix `daily/` the dump file is
`backup/daily/20240102_030405.sql`: its base name lacks the prefix and its
directory is not `backup`. With folder prefix `./` the directory of the computed
name is `backup`, not the string `./backup`. And in year 12024 the stamp has 16
characters. -/
theorem dump_file_name_not_prefix_stamp :
    backupFileNameOf cfgSlashInFilePrefix timeA = "backup/daily/20240102_030405.sql" ∧
    Base (backupFileNameOf cfgSlashInFilePrefix timeA) = "20240102_030405.sql" ∧
    Base (backupFileNameOf cfgSlashInFilePrefix timeA)
      ≠ cfgSlashInFilePrefix.backupFilePrefix ++ formatStamp timeA ++ ".sql" ∧
    Dir (backupFileNameOf cfgSlashInFilePrefix timeA) = "backup/daily" ∧
    Dir (backupFileNameOf cfgSlashInFilePrefix timeA)
      ≠ cfgSlashInFilePrefix.backupFolderPrefix ++ "backup" ∧
    Dir (backupFileNameOf cfgDotFolderPrefix timeA) = "backup" ∧
    Dir (backupFileNameOf cfgDotFolderPrefix timeA)
      ≠ cfgDotFolderPrefix.backupFolderPrefix ++ "backup" ∧
    (formatStamp { timeA with year := 12024 }).length = 16 := by
  decide

/-! ## C9: the local dump file -/

/-- C9: after a run that ends successfully the local dump file is not on disk;
and when its removal fails, the run is fatal with the failed removal as its
last action, although the upload was made, the previous object (if the pointer
named one) was asked to be deleted, and the pointer file was already
overwritten with the new base name. -/
theorem local_dump_removed_or_fatal (cfg : Config) (o : Oracle) (w : World) :
    ((main cfg o w).exit = .success →
      backupFileNameOf cfg o.now ∉ (main cfg o w).final.world.files ∧
      removeCalls (main cfg o w).final.trace = [backupFileNameOf cfg o.now]) ∧
    (∀ e, removeResults (main cfg o w).final.trace = [some e] →
      (main cfg o w).exit = .fatal ∧
      (main cfg o w).final.trace.getLast? = some (.remove (backupFileNameOf cfg o.now) (some e)) ∧
      uploadCalls (main cfg o w).final.trace = [backupFileNameOf cfg o.now] ∧
      deleteCalls (main cfg o w).final.trace = (if previousOf w = "" then [] else [previousOf w]) ∧
      pointerWrites (main cfg o w).final.trace = [Base (backupFileNameOf cfg o.now)] ∧
      (main cfg o w).final.world.pointer = some (Base (backupFileNameOf cfg o.now))) := by
  constructor
  · intro h
    obtain ⟨⟨_, hf, _⟩, hr, hu, hl, hw, hx, hm⟩ := success_run cfg o w h
    have hfe := folderEvents_ok cfg o hf
    rw [hm]
    by_cases hp : previousOf w = ""
    all_goals
      simp [hp, hfe, removeCalls, uploadTried, readDone, dumped, deleteTried, uploaded,
        deletedWith, appendDone, saveDone, removeDone, uploadEvents_if, deleteEvents_if,
        List.filterMap_append, filterMap_if]
  · intro e he
    have hlast : ∀ (q : Proc) (e1 : String),
        (removeFailed e1 (backupFileNameOf cfg o.now) q).trace.getLast?
          = some (.remove (backupFileNameOf cfg o.now) (some e1)) :=
      fun q e1 => List.getLast?_concat q.trace
    by_cases hp : previousOf w = ""
    all_goals
      rcases run_cases cfg o w with ⟨e1, h1, hm⟩ | ⟨e1, h1, hf1, he1, hm⟩ |
        ⟨e1, h1, hf1, hd1, hm⟩ | ⟨_, e1, hr, hm⟩ | ⟨_, hr, fl, hu, hm⟩ |
        ⟨_, hr, hu, _, fl, hl, hm⟩ | ⟨_, hr, hu, hl, wf, hw, hm⟩ |
        ⟨_, hr, hu, hl, hw, e1, hx, hm⟩ | ⟨_, hr, hu, hl, hw, hx, hm⟩ | ⟨_, hr, hc, hm⟩
    all_goals rw [hm] at he ⊢
    all_goals try rw [hlast]
    all_goals
      simp [hp, removeResults, uploadCalls, deleteCalls, pointerWrites, readFailed, uploadCrashed,
        appendFailed, uploadTried, readDone, dumped, deleteTried, uploaded, deletedWith,
        appendDone, saveFailed, saveDone, removeFailed, removeDone, uploadEvents_if,
        deleteEvents_if, folderEvents, List.filterMap_append, filterMap_if] at he ⊢
    all_goals exact he

/-- C9 witness: `os.Remove` is refused; the run is fatal after everything else
was done. -/
theorem local_dump_removed_or_fatal_witness :
    removeResults (main cfgA oracleRemoveFails worldOld).final.trace
      = [some "permission denied"] ∧
    (main cfgA oracleRemoveFails worldOld).exit = .fatal ∧
    deleteCalls (main cfgA oracleRemoveFails worldOld).final.trace = ["db_old.sql"] ∧
    (main cfgA oracleRemoveFails worldOld).final.world.pointer
      = some "db_20240102_030405.sql" ∧
    ((main cfgA oracleOk worldOld).exit = .success ∧
      backupFileNameOf cfgA oracleOk.now ∉ (main cfgA oracleOk worldOld).final.world.files) :=
  have h := (local_dump_removed_or_fatal cfgA oracleRemoveFails worldOld).2
    "permission denied" (by decide)
  ⟨by decide, h.1, by decide, by decide, by decide,
    ((local_dump_removed_or_fatal cfgA oracleOk worldOld).1 (by decide)).1⟩

/-! ## C10: the pointer value is the upload key -/

/-- C10: cross-run key agreement. In any run, every value written to the
pointer file and every key passed to `PutObject` is `filepath.Base` of that
run's `backupFileName`, so the two are the same string. Hence, of two
consecutive completed runs with no other writer of the pointer file, the second
calls `deleteFromS3` exactly once, with the key under which the first uploaded
(or tried to upload) its dump; that base name is never empty. -/
theorem upload_key_is_pointer_value (cfg : Config) (o : Oracle) (w : World)
    (cfg2 : Config) (o2 : Oracle) (w2 : World) :
    (∀ v ∈ pointerWrites (main cfg o w).final.trace, v = Base (backupFileNameOf cfg o.now)) ∧
    (∀ k ∈ putKeys (main cfg o w).final.trace, k = Base (backupFileNameOf cfg o.now)) ∧
    (∀ v ∈ pointerWrites (main cfg o w).final.trace,
      ∀ k ∈ putKeys (main cfg o w).final.trace, k = v) ∧
    ((main cfg o w).exit = .success → w2.pointer = (main cfg o w).final.world.pointer →
      (main cfg2 o2 w2).exit = .success →
      uploadCalls (main cfg o w).final.trace = [backupFileNameOf cfg o.now] ∧
      pointerWrites (main cfg o w).final.trace = [Base (backupFileNameOf cfg o.now)] ∧
      Base (backupFileNameOf cfg o.now) ≠ "" ∧
      deleteCalls (main cfg2 o2 w2).final.trace = [Base (backupFileNameOf cfg o.now)]) := by
  have hkeys : (∀ v ∈ pointerWrites (main cfg o w).final.trace,
        v = Base (backupFileNameOf cfg o.now)) ∧
      (∀ k ∈ putKeys (main cfg o w).final.trace, k = Base (backupFileNameOf cfg o.now)) := by
    by_cases hp : previousOf w = ""
    all_goals
      rcases run_cases cfg o w with ⟨e1, h1, hm⟩ | ⟨e1, h1, hf1, he1, hm⟩ |
        ⟨e1, h1, hf1, hd1, hm⟩ | ⟨_, e1, hr, hm⟩ | ⟨_, hr, fl, hu, hm⟩ |
        ⟨_, hr, hu, _, fl, hl, hm⟩ | ⟨_, hr, hu, hl, wf, hw, hm⟩ |
        ⟨_, hr, hu, hl, hw, e1, hx, hm⟩ | ⟨_, hr, hu, hl, hw, hx, hm⟩ | ⟨_, hr, hc, hm⟩
    all_goals rw [hm]
    all_goals
      simp [hp, putKeys, pointerWrites, readFailed, uploadCrashed,
        appendFailed, uploadTried, readDone, dumped, deleteTried, uploaded, deletedWith,
        appendDone, saveFailed, saveDone, removeFailed, removeDone, uploadEvents_if,
        deleteEvents_if, folderEvents, List.filterMap_append, filterMap_if]
  refine ⟨hkeys.1, hkeys.2, ?_, ?_⟩
  · intro v hv k hk
    rw [hkeys.1 v hv, hkeys.2 k hk]
  · intro h1 hw2 h2
    obtain ⟨⟨_, hf, _⟩, hr, hu, hl, hw, hx, hm⟩ := success_run cfg o w h1
    have hfe := folderEvents_ok cfg o hf
    have hne := Base_ne_empty (backupFileNameOf cfg o.now)
    have hprev : previousOf w2 = Base (backupFileNameOf cfg o.now) := by
      rw [previousOf, hw2, hm]
      simp [removeDone, saveDone]
    obtain ⟨⟨_, hf2, _⟩, hr2, hu2, hl2, hw2, hx2, hm2⟩ := success_run cfg2 o2 w2 h2
    have hfe2 := folderEvents_ok cfg2 o2 hf2
    refine ⟨?_, ?_, hne, ?_⟩
    · rw [hm]
      by_cases hp : previousOf w = ""
      all_goals
        simp [hp, hfe, uploadCalls, uploadTried, readDone, dumped, deleteTried, uploaded,
          deletedWith, appendDone, saveDone, removeDone, uploadEvents_if, deleteEvents_if,
          List.filterMap_append, filterMap_if]
    · rw [hm]
      by_cases hp : previousOf w = ""
      all_goals
        simp [hp, hfe, pointerWrites, uploadTried, readDone, dumped, deleteTried, uploaded,
          deletedWith, appendDone, saveDone, removeDone, uploadEvents_if, deleteEvents_if,
          List.filterMap_append, filterMap_if]
    · rw [hm2, hprev]
      simp [hne, hfe2, deleteCalls, uploadTried, readDone, dumped, deleteTried, uploaded,
        deletedWith, appendDone, saveDone, removeDone, uploadEvents_if, deleteEvents_if,
        List.filterMap_append, filterMap_if]

/-- C10 witness: the run after `main cfgA oracleS3Down worldOld` asks for the
deletion of the key the earlier run tried to upload under. -/
theorem upload_key_is_pointer_value_witness :
    (main cfgA oracleS3Down worldOld).exit = .success ∧
    (main cfgA { oracleOk with now := timeB } worldNext).exit = .success ∧
    putKeys (main cfgA oracleS3Down worldOld).final.trace = ["db_20240102_030405.sql"] ∧
    deleteCalls (main cfgA { oracleOk with now := timeB } worldNext).final.trace
      = [Base (backupFileNameOf cfgA oracleS3Down.now)] :=
  ⟨by decide, by decide, by decide,
    ((upload_key_is_pointer_value cfgA oracleS3Down worldOld cfgA
      { oracleOk with now := timeB } worldNext).2.2.2 (by decide) rfl (by decide)).2.2.2⟩

end BackupS3
